import Mathlib

/-!
# Verification of the `eventsource` package (SSE codec and streaming client)

Shallow embedding of the Go package `github.com/peterbourgon/eventsource`:
the `Decoder` and `Encoder` for the Server-Sent-Events wire format, and the
`EventSource` streaming client (connect/retry state machine).

Modelling conventions:
* Go byte strings (`string`, `[]byte`) are `List Nat` (byte values); Go makes
  no observable difference between a nil and an empty slice in this code, so
  both map to `[]`.
* Go `error` values are the inductive `GoError`; `fmt.Errorf("...: %w", e)`
  at the one wrapping site in `Decoder.Decode` is `GoError.readFieldWrap`,
  and `errors.Is` is `errorsIs` (unwrap chain).
* `time.Duration` is `Int` (int64 nanoseconds, with wraparound `wrap64`
  applied where Go multiplication can overflow).
* IO is made explicit: the decoder carries its remaining input in `DecState`;
  the HTTP transport is a list of `Outcome`s consumed by successive
  `client.Do` calls; waits, header writes and body closes are recorded in a
  `TraceEv` trace.
* `bufio.Reader.ReadLine` is `readLine` (drops `\n` / `\r\n`; a final chunk
  with no newline is returned as-is, then end of stream); the `isPrefix`
  long-line continuation is invisible at this level because `ReadField`
  always accumulates until the full logical line is buffered.
* the client uses `mime.ParseMediaType` only in the comparison
  `mt != "text/event-stream"` (discarding the params and the error, and
  reporting the raw header in its own error), so the embedding models that
  boolean: `parseMediaTypeIsEventStream` follows `mime/mediatype.go`
  byte-for-byte — Unicode `TrimSpace`, the `token=value` parameter loop
  with its quoted-string and RFC 2231 continuation handling, and the
  duplicate-parameter error (the one parameter-path outcome that replaces
  an otherwise matching media type by `""`; `ErrInvalidMediaParameter`
  returns the media type unchanged).
* loops are structural recursion (`connect` on the outcome list) or fuel
  (`decodeLoop`, `readLoop`); fuel exhaustion is the artificial `none` /
  `ReadRes.stuck` results, and `decodeLoop_isSome` shows the fuel chosen by
  `Decode` always suffices.
-/

set_option maxRecDepth 4096

namespace ES

/-- Byte list of an ASCII string literal (all literals used are ASCII). -/
def ascii (s : String) : List Nat := s.data.map Char.toNat

/-- Is `b` a UTF-8 continuation byte (`0x80..0xBF`)? Models the accept
ranges of Go `unicode/utf8`. -/
def contByte (b : Nat) : Bool := 128 ≤ b && b < 192

/-- Go `utf8.Valid` / `utf8.ValidString`: shortest-form UTF-8, surrogates
rejected, max U+10FFFF.  Second-byte ranges narrow for lead bytes
`0xE0, 0xED, 0xF0, 0xF4` exactly as in `unicode/utf8.acceptRanges`. -/
def validUtf8 : List Nat → Bool
  | [] => true
  | b :: rest =>
    if b < 128 then validUtf8 rest
    else if b < 194 then false
    else if b < 224 then
      match rest with
      | b1 :: rest₁ => contByte b1 && validUtf8 rest₁
      | [] => false
    else if b < 240 then
      match rest with
      | b1 :: b2 :: rest₂ =>
        (if b = 224 then 160 ≤ b1 && b1 < 192
         else if b = 237 then 128 ≤ b1 && b1 < 160
         else contByte b1) && contByte b2 && validUtf8 rest₂
      | _ => false
    else if b < 245 then
      match rest with
      | b1 :: b2 :: b3 :: rest₃ =>
        (if b = 240 then 144 ≤ b1 && b1 < 192
         else if b = 244 then 128 ≤ b1 && b1 < 144
         else contByte b1) && contByte b2 && contByte b3 && validUtf8 rest₃
      | _ => false
    else false

/-- Go `type Event struct { Type', ID, Retry string; Data []byte; ResetID bool }`. -/
structure Event where
  Type' : List Nat
  ID : List Nat
  Retry : List Nat
  Data : List Nat
  ResetID : Bool
deriving DecidableEq

/-- Go `var e Event` (zero value). -/
def zeroEvent : Event := { Type' := [], ID := [], Retry := [], Data := [], ResetID := false }

/-- The Go `error` values this package can observe. `readFieldWrap` is the
`fmt.Errorf("read field: %w", err)` wrapper in `Decoder.Decode`. -/
inductive GoError where
  /-- `io.EOF` (or any other terminal read error of the stream). -/
  | eof
  /-- `ErrClosed`. -/
  | closed
  /-- `ErrInvalidEncoding`. -/
  | invalidEncoding
  /-- `context.Canceled`. -/
  | canceled
  /-- any other transport error from `client.Do` (timeout, refused, ...). -/
  | transport (code : Nat)
  /-- `fmt.Errorf("read field: %w", cause)`. -/
  | readFieldWrap (cause : GoError)
  /-- `fmt.Errorf("invalid response Content-Type (%s)", ct)`. -/
  | invalidContentType (ct : List Nat)
  /-- `fmt.Errorf("endpoint returned unrecoverable status %s", resp.Status)`. -/
  | unrecoverableStatus (status : Nat)
deriving DecidableEq

/-- Go `errors.Is`: equality along the `%w` unwrap chain. -/
def errorsIs : GoError → GoError → Bool
  | .readFieldWrap c, target => (GoError.readFieldWrap c == target) || errorsIs c target
  | e, target => e == target

deriving instance DecidableEq for Except

/-! ## Decoder (`decoder.go`) -/

/-- Split a byte list at its first `\n` (byte 10); `none` if there is none. -/
def breakNewline : List Nat → Option (List Nat × List Nat)
  | [] => none
  | b :: rest =>
    if b = 10 then some ([], rest)
    else
      match breakNewline rest with
      | some (pre, post) => some (b :: pre, post)
      | none => none

/-- Drop one trailing `\r` (byte 13), as `bufio.ReadLine` does for `\r\n`
line endings and `Encoder.WriteField` does per segment. -/
def dropCR (l : List Nat) : List Nat :=
  if l.getLast? = some 13 then l.dropLast else l

/-- `bufio.Reader.ReadLine`, fully accumulated (the `isPrefix` loop in
`ReadField` re-assembles long lines): strips a final `\n` or `\r\n`; a
final chunk with no newline is returned unchanged; `none` on empty input
(`io.EOF`). -/
def readLine (bs : List Nat) : Option (List Nat × List Nat) :=
  match bs with
  | [] => none
  | _ :: _ =>
    match breakNewline bs with
    | some (pre, post) => some (dropCR pre, post)
    | none => some (bs, [])

/-- `bytes.Cut(buf, []byte{':'})`: the parts before and after the first
colon (byte 58); if there is no colon the whole input is the first part. -/
def cutColon : List Nat → List Nat × List Nat
  | [] => ([], [])
  | b :: rest =>
    if b = 58 then ([], rest)
    else
      let (f, v) := cutColon rest
      (b :: f, v)

/-- §7 of the SSE spec: if value starts with one space (byte 32), remove it. -/
def stripLeadingSpace (v : List Nat) : List Nat :=
  match v with
  | b :: rest => if b = 32 then rest else v
  | [] => v

/-- Consume one leading U+FEFF byte-order mark (UTF-8 `EF BB BF`), as
`Decoder.checkBOM` does via `ReadRune`/`UnreadRune`. -/
def stripBOM (bs : List Nat) : List Nat :=
  match bs with
  | b0 :: b1 :: b2 :: rest => if b0 = 239 ∧ b1 = 187 ∧ b2 = 191 then rest else bs
  | _ => bs

/-- Decoder state: remaining input bytes and the `checkedBOM` flag. -/
structure DecState where
  input : List Nat
  checkedBOM : Bool
deriving DecidableEq

/-- Result of `Decoder.ReadField`: a (field, value) pair or an error. -/
inductive FieldRes where
  | ok (field : List Nat) (value : List Nat)
  | err (e : GoError)
deriving DecidableEq

/-- `Decoder.checkBOM` as a state adjustment: on non-empty input, strip a
leading BOM and set `checkedBOM`; on empty input `ReadRune` fails and the
flag stays unset. -/
def bomAdjust (s : DecState) : DecState :=
  if s.checkedBOM then s
  else
    match s.input with
    | [] => s
    | _ :: _ => ⟨stripBOM s.input, true⟩

/-- The body of `Decoder.ReadField` after the BOM check: read one logical
line; empty line signals the event boundary with `("", nil, nil)`;
otherwise cut at the first colon, strip one leading space from the value,
and require both parts to be valid UTF-8. -/
def readFieldCore (bs : List Nat) : FieldRes × List Nat :=
  match readLine bs with
  | none => (.err .eof, bs)
  | some (buf, rest) =>
    if buf = [] then (.ok [] [], rest)
    else
      let f := (cutColon buf).1
      let v := stripLeadingSpace (cutColon buf).2
      if validUtf8 f && validUtf8 v then (.ok f v, rest)
      else (.err .invalidEncoding, rest)

/-- `Decoder.ReadField`. -/
def ReadField (s : DecState) : FieldRes × DecState :=
  let s₁ := bomAdjust s
  let r := readFieldCore s₁.input
  (r.1, ⟨r.2, s₁.checkedBOM⟩)

/-- The field dispatch `switch` inside `Decoder.Decode`; the `Bool` is the
`wroteData` flag. -/
def dispatch (e : Event) (wroteData : Bool) (f v : List Nat) : Event × Bool :=
  if f = ascii "id" then
    (if v = [] then { e with ID := v, ResetID := true } else { e with ID := v }, wroteData)
  else if f = ascii "retry" then ({ e with Retry := v }, wroteData)
  else if f = ascii "event" then ({ e with Type' := v }, wroteData)
  else if f = ascii "data" then
    (if wroteData then { e with Data := e.Data ++ 10 :: v } else { e with Data := e.Data ++ v },
     true)
  else (e, wroteData)

/-- The `for` loop of `Decoder.Decode`, with fuel (`none` = fuel ran out;
`Decode` supplies enough). Returns the event (or the wrapped `ReadField`
error) together with the post-loop decoder state. -/
def decodeLoop : Nat → DecState → Event → Bool → Option ((Except GoError Event) × DecState)
  | 0, _, _, _ => none
  | fuel + 1, s, e, w =>
    match ReadField s with
    | (.err er, s') => some (.error (.readFieldWrap er), s')
    | (.ok f v, s') =>
      if f = [] ∧ v = [] then some (.ok e, s')
      else
        let p := dispatch e w f v
        decodeLoop fuel s' p.1 p.2

/-- `Decoder.Decode`: sets `e.Type' = "message"` and runs the field loop.
The fuel `s.input.length + 1` always suffices (`decodeLoop_isSome`), so the
fallback arm is dead code. -/
def Decode (s : DecState) (e : Event) : (Except GoError Event) × DecState :=
  match decodeLoop (s.input.length + 1) s { e with Type' := ascii "message" } false with
  | some r => r
  | none => (.error (.readFieldWrap .eof), s)

/-- The same loop as `decodeLoop` but collecting the (field, value) pairs
it dispatches, used to state which fields an event block carries. -/
def decodeFields : Nat → DecState → Option ((Except GoError (List (List Nat × List Nat))) × DecState)
  | 0, _ => none
  | fuel + 1, s =>
    match ReadField s with
    | (.err er, s') => some (.error (.readFieldWrap er), s')
    | (.ok f v, s') =>
      if f = [] ∧ v = [] then some (.ok [], s')
      else
        match decodeFields fuel s' with
        | none => none
        | some (.error er, s'') => some (.error er, s'')
        | some (.ok fs, s'') => some (.ok ((f, v) :: fs), s'')

/-- `decodeFields` with the same fuel policy as `Decode`. -/
def decodeFieldsRun (s : DecState) : (Except GoError (List (List Nat × List Nat))) × DecState :=
  match decodeFields (s.input.length + 1) s with
  | some r => r
  | none => (.error (.readFieldWrap .eof), s)

/-- Fold the `Decode` dispatch over a list of fields. -/
def foldDispatch (e : Event) (w : Bool) : List (List Nat × List Nat) → Event × Bool
  | [] => (e, w)
  | (f, v) :: fs =>
    let p := dispatch e w f v
    foldDispatch p.1 p.2 fs

/-! ## Encoder (`encoder.go`) -/

/-- `bytes.Split(value, []byte{'\n'})`. -/
def splitNL : List Nat → List (List Nat)
  | [] => [[]]
  | b :: rest =>
    if b = 10 then [] :: splitNL rest
    else
      match splitNL rest with
      | s :: ss => (b :: s) :: ss
      | [] => [[b]]

/-- `Encoder.writeField`: one wire line, `"field: value\n"`, or a bare
`"field\n"` when the value is empty. -/
def writeFieldLine (field value : List Nat) : List Nat :=
  if value = [] then field ++ [10]
  else field ++ 58 :: 32 :: (value ++ [10])

/-- `Encoder.WriteField`: UTF-8 validation, then one wire line per
newline-separated segment of the value, each segment stripped of one
trailing `\r`. The written bytes are returned (the sink is an in-memory
buffer, so no write errors occur). -/
def WriteField (field value : List Nat) : Except GoError (List Nat) :=
  if validUtf8 field && validUtf8 value then
    .ok (((splitNL value).map fun line => writeFieldLine field (dropCR line)).flatten)
  else .error .invalidEncoding

/-- `Encoder.Encode`: `id` (only if `ResetID` or `ID` non-empty), `retry`
(only if non-empty), `event` (only if non-empty), `data` (always), then
the blank line written by `Flush`. -/
def Encode (e : Event) : Except GoError (List Nat) :=
  (if e.ResetID ∨ e.ID ≠ [] then WriteField (ascii "id") e.ID else .ok []).bind fun idPart =>
  (if e.Retry ≠ [] then WriteField (ascii "retry") e.Retry else .ok []).bind fun retryPart =>
  (if e.Type' ≠ [] then WriteField (ascii "event") e.Type' else .ok []).bind fun eventPart =>
  (WriteField (ascii "data") e.Data).bind fun dataPart =>
  .ok (idPart ++ retryPart ++ eventPart ++ dataPart ++ [10])

/-! ## Streaming client (`eventsource.go`) -/

/-- All bytes are ASCII digits `0-9`. -/
def allDigits (l : List Nat) : Bool := l.all fun b => 48 ≤ b && b ≤ 57

/-- Numeric value of a digit string. -/
def digitsVal (l : List Nat) : Nat := l.foldl (fun acc b => acc * 10 + (b - 48)) 0

/-- Go `strconv.Atoi` (= `ParseInt(s, 10, 64)` here): optional single `+`/`-`
sign, then a non-empty run of ASCII digits; `none` on syntax error or
64-bit signed overflow. -/
def atoi (s : List Nat) : Option Int :=
  let p : Bool × List Nat :=
    match s with
    | 45 :: rest => (true, rest)
    | 43 :: rest => (false, rest)
    | _ => (false, s)
  if p.2 = [] ∨ ¬allDigits p.2 then none
  else
    let n := digitsVal p.2
    if p.1 then if n ≤ 2 ^ 63 then some (-(n : Int)) else none
    else if n < 2 ^ 63 then some (n : Int) else none

/-- Two's-complement wraparound of Go int64 arithmetic. -/
def wrap64 (x : Int) : Int := (x + 2 ^ 63) % 2 ^ 64 - 2 ^ 63

/-- ASCII-lowercase one byte. -/
def toLowerByte (b : Nat) : Nat := if 65 ≤ b ∧ b ≤ 90 then b + 32 else b

/-- One leading white-space rune, on bytes.  The byte encodings of the
Unicode `White_Space` runes (Go `unicode.IsSpace`): `U+0009..U+000D`,
`U+0020`, `U+0085`, `U+00A0`, `U+1680`, `U+2000..U+200A`, `U+2028`,
`U+2029`, `U+202F`, `U+205F`, `U+3000`.  `strings.TrimLeftFunc` decodes
with `utf8.DecodeRune`, under which an invalid or truncated sequence
yields `U+FFFD` — not white space — and stops the trim; hence `none` on
anything that is not the exact encoding of a white-space rune. -/
def wsHead : List Nat → Option (List Nat)
  | 9 :: r => some r
  | 10 :: r => some r
  | 11 :: r => some r
  | 12 :: r => some r
  | 13 :: r => some r
  | 32 :: r => some r
  | 194 :: 133 :: r => some r
  | 194 :: 160 :: r => some r
  | 225 :: 154 :: 128 :: r => some r
  | 226 :: 128 :: b :: r =>
    if (128 ≤ b ∧ b ≤ 138) ∨ b = 168 ∨ b = 169 ∨ b = 175 then some r else none
  | 226 :: 129 :: 159 :: r => some r
  | 227 :: 128 :: 128 :: r => some r
  | _ => none

/-- `strings.TrimLeftFunc(·, unicode.IsSpace)`, fuel-bounded: every step
strips at least one byte, so fuel equal to the length never runs out. -/
def trimLeftWsF : Nat → List Nat → List Nat
  | 0, l => l
  | f + 1, l =>
    match wsHead l with
    | some r => trimLeftWsF f r
    | none => l

/-- `strings.TrimLeftFunc(·, unicode.IsSpace)` on bytes. -/
def trimLeftWs (l : List Nat) : List Nat := trimLeftWsF l.length l

/-- One trailing white-space rune, stated on the REVERSED byte string.
`strings.TrimRightFunc` decodes the last rune with `utf8.DecodeLastRune`,
which scans back to the nearest start byte (at most 4 bytes) and requires
the decoded rune to span exactly to the end, so matching the reversed
exact encodings is equivalent: any other suffix decodes to `U+FFFD` (not
white space) and stops the trim. -/
def wsSuffixRev : List Nat → Option (List Nat)
  | 9 :: r => some r
  | 10 :: r => some r
  | 11 :: r => some r
  | 12 :: r => some r
  | 13 :: r => some r
  | 32 :: r => some r
  | 133 :: 194 :: r => some r
  | 160 :: 194 :: r => some r
  | 128 :: 154 :: 225 :: r => some r
  | 159 :: 129 :: 226 :: r => some r
  | 128 :: 128 :: 227 :: r => some r
  | b :: 128 :: 226 :: r =>
    if (128 ≤ b ∧ b ≤ 138) ∨ b = 168 ∨ b = 169 ∨ b = 175 then some r else none
  | _ => none

/-- `strings.TrimRightFunc(·, unicode.IsSpace)` on reversed bytes,
fuel-bounded as in `trimLeftWsF`. -/
def trimRightWsF : Nat → List Nat → List Nat
  | 0, l => l
  | f + 1, l =>
    match wsSuffixRev l with
    | some r => trimRightWsF f r
    | none => l

/-- Go `strings.TrimSpace`: Unicode white space trimmed from both ends. -/
def trimWs (l : List Nat) : List Nat :=
  (trimRightWsF (trimLeftWs l).reverse.length (trimLeftWs l).reverse).reverse

/-- `isTSpecial` from `mime/mediatype.go`: one of
`( ) < > @ , ; : \ " / [ ] ? =`. -/
def isTSpecialByte (b : Nat) : Bool :=
  b = 40 || b = 41 || b = 60 || b = 62 || b = 64 || b = 44 || b = 59 || b = 58 ||
    b = 92 || b = 34 || b = 47 || b = 91 || b = 93 || b = 63 || b = 61

/-- `isTokenChar` from `mime/mediatype.go`: printable US-ASCII except
SPACE, CTLs and tspecials (`0x20 < r < 0x7f`). -/
def isTokenByte (b : Nat) : Bool := 32 < b && b < 127 && !isTSpecialByte b

/-- `consumeToken` from `mime/mediatype.go`: the longest prefix of token
characters and the rest.  Go scans runes with `strings.IndexFunc`, but a
multi-byte or invalid rune is never a token character and begins at a
non-token byte, so the split is the byte-level one. -/
def consumeToken (v : List Nat) : List Nat × List Nat :=
  (v.takeWhile isTokenByte, v.dropWhile isTokenByte)

/-- The quoted-string loop of `consumeValue` (after the opening quote),
fuel-bounded (each step consumes one byte of the remainder).  `acc` holds
the reversed buffer; a backslash escapes only a following tspecial byte;
`none` models Go returning `("", v)`: a bare CR or LF inside the quotes,
or no closing quote. -/
def quotedValueF : Nat → List Nat → List Nat → Option (List Nat × List Nat)
  | 0, _, _ => none
  | _ + 1, _, [] => none
  | _ + 1, acc, 34 :: r => some (acc.reverse, r)
  | f + 1, acc, 92 :: b :: r =>
    if isTSpecialByte b then quotedValueF f (b :: acc) r
    else quotedValueF f (92 :: acc) (b :: r)
  | _ + 1, _, 13 :: _ => none
  | _ + 1, _, 10 :: _ => none
  | f + 1, acc, b :: r => quotedValueF f (b :: acc) r

/-- `consumeValue` from `mime/mediatype.go`: a quoted string if the input
starts with `"`, else a bare token.  Failure returns an empty value and
the input unchanged, exactly the Go signal `value == "" && rest == input`. -/
def consumeValue (v : List Nat) : List Nat × List Nat :=
  match v with
  | 34 :: r =>
    match quotedValueF (r.length + 1) [] r with
    | some p => (p.1, p.2)
    | none => ([], v)
  | _ => consumeToken v

/-- `consumeMediaParam` from `mime/mediatype.go`:
`;` `token` `=` `value` with optional white space around each piece; the
key is lowercased (keys are tokens, hence ASCII).  Any parse failure
returns an empty key and value with the input unchanged. -/
def consumeMediaParam (v : List Nat) : List Nat × List Nat × List Nat :=
  match trimLeftWs v with
  | 59 :: r1 =>
    let r2 := trimLeftWs r1
    let pt := consumeToken r2
    let param := pt.1.map toLowerByte
    if param = [] then ([], [], v)
    else
      match trimLeftWs pt.2 with
      | 61 :: r5 =>
        let r6 := trimLeftWs r5
        let vv := consumeValue r6
        if vv.1 = [] ∧ vv.2 = r6 then ([], [], v)
        else (param, vv.1, vv.2)
      | _ => ([], [], v)
  | _ => ([], [], v)

/-- Association-list lookup modelling Go's `map[string]string` (`params`
and the inner continuation maps); insertion is by consing, which shadows
the old binding and preserves every lookup. -/
def alook (k : List Nat) : List (List Nat × List Nat) → Option (List Nat)
  | [] => none
  | p :: r => if p.1 = k then some p.2 else alook k r

/-- Lookup in the outer continuation map
(`map[string]map[string]string`). -/
def alook2 (k : List Nat) :
    List (List Nat × List (List Nat × List Nat)) → Option (List (List Nat × List Nat))
  | [] => none
  | p :: r => if p.1 = k then some p.2 else alook2 k r

/-- The parameter loop of `mime.ParseMediaType`, reduced to the one fact
`connect` observes about it: whether the duplicate-parameter error fires.
After `checkMediaTypeDisposition` has passed, that is the only return
that replaces the media type by `""`: on a parameter parse failure Go
returns the media type together with `ErrInvalidMediaParameter` (both
when the remainder is a lone trailing `;`, which merely breaks the loop,
and otherwise), and the RFC 2231 continuation stitching after the loop
only edits `params`.  A parameter whose key repeats with the SAME value
is allowed.  Keys containing `*` go to the per-base-name continuation
map, the others to `params`, exactly as in Go.  Fuel: every iteration
consumes at least the `;`, so `length + 1` never runs out. -/
def mediaParamsNoDup :
    Nat → List Nat → List (List Nat × List Nat) →
      List (List Nat × List (List Nat × List Nat)) → Bool
  | 0, _, _, _ => false
  | fuel + 1, v, params, cont =>
    if v = [] then true
    else
      let v1 := trimLeftWs v
      if v1 = [] then true
      else
        let kvr := consumeMediaParam v1
        if kvr.1 = [] then true
        else
          let key := kvr.1
          let value := kvr.2.1
          if 42 ∈ key then
            let baseName := key.takeWhile fun b => b ≠ 42
            let inner := (alook2 baseName cont).getD []
            match alook key inner with
            | some old =>
              if old = value then
                mediaParamsNoDup fuel kvr.2.2 params
                  ((baseName, (key, value) :: inner) :: cont)
              else false
            | none =>
              mediaParamsNoDup fuel kvr.2.2 params
                ((baseName, (key, value) :: inner) :: cont)
          else
            match alook key params with
            | some old =>
              if old = value then mediaParamsNoDup fuel kvr.2.2 ((key, value) :: params) cont
              else false
            | none => mediaParamsNoDup fuel kvr.2.2 ((key, value) :: params) cont

/-- Does `strings.TrimSpace(strings.ToLower(base))` equal
`"text/event-stream"`?  `ToLower` is rune-wise (`strings.Map`), maps
white-space runes to themselves and non-white-space (including the
`U+FFFD` that replaces invalid bytes) to non-white-space, so it commutes
with `TrimSpace`; and on the trimmed bytes a rune lowers to a character
of the ASCII target iff it IS that character or its ASCII upper case —
the only runes above `0x7F` whose simple lower case is ASCII are
`U+0130 → i` and `U+212A → k`, and neither `i` nor `k` occurs in
`"text/event-stream"`, while every other non-ASCII or invalid byte stays
non-ASCII under `ToLower`. -/
def baseIsEventStream (base : List Nat) : Bool :=
  (trimWs base).map toLowerByte == ascii "text/event-stream"

/-- The condition tested by `connect`:
`mt, _, _ := mime.ParseMediaType(ct)` followed by
`mt == "text/event-stream"` (the error and params are discarded, and the
error `connect` records carries the raw `ct`, so only this boolean is
observable).  `ParseMediaType` sets `mediatype` to the trimmed lowered
part before the first `;` and then can only replace it by `""` via
`checkMediaTypeDisposition` — which always passes when the value matches
`"text/event-stream"`, a valid `token/token` — or via the
duplicate-parameter error; so the comparison holds iff the base matches
and the parameter loop finds no duplicate. -/
def parseMediaTypeIsEventStream (ct : List Nat) : Bool :=
  baseIsEventStream (ct.takeWhile fun b => b ≠ 59)
    && mediaParamsNoDup ((ct.dropWhile fun b => b ≠ 59).length + 1)
      (ct.dropWhile fun b => b ≠ 59) [] []

/-- One result of `es.client.Do(es.request)`: a transport error or an HTTP
response (status, Content-Type header, body bytes). -/
inductive Outcome where
  | err (e : GoError)
  | resp (status : Nat) (contentType : List Nat) (body : List Nat)
deriving DecidableEq

/-- Observable side effects of the client, in order of occurrence. -/
inductive TraceEv where
  /-- `es.r.Close()` — the previous connection's body released. -/
  | closedBody
  /-- `<-time.After(es.retry)` — waited the current retry interval. -/
  | waited (d : Int)
  /-- `es.client.Do` issued with this `Last-Event-Id` header value. -/
  | sentRequest (lastEventID : List Nat)
  /-- `resp.Body.Close()` — a rejected response's body released. -/
  | closedRespBody
  /-- `es.dec = NewDecoder(es.r)` — fresh decoder bound on success. -/
  | boundDecoder
  /-- one `es.dec.Decode(&e)` call made by `Read`. -/
  | decoded
deriving DecidableEq

/-- Go `EventSource` struct: `err`, `r` (is a response body bound — Go's
`es.r != nil`), `dec`, `lastEventID`, `retry`. -/
structure ESState where
  err : Option GoError
  r : Bool
  dec : Option DecState
  lastEventID : List Nat
  retry : Int
deriving DecidableEq

/-- Trace of the loop-head of `connect`: close the old body and wait if a
previous connection exists, then issue the request with the sticky
`Last-Event-Id` header. -/
def connectPre (es : ESState) : List TraceEv :=
  (if es.r then [TraceEv.closedBody, TraceEv.waited es.retry] else [])
    ++ [TraceEv.sentRequest es.lastEventID]

/-- `EventSource.connect`: loops while `es.err == nil`, consuming one
transport outcome per attempt.  Returns the final state, the unconsumed
outcomes, and the trace.  (An exhausted outcome list stops the loop — an
artifact of the finite transcript; `client.Do` always returns.) -/
def connect : ESState → List Outcome → ESState × List Outcome × List TraceEv
  | es, [] => (es, [], [])
  | es, o :: rest =>
    match es.err with
    | some _ => (es, o :: rest, [])
    | none =>
      let pre := connectPre es
      match o with
      | .err er =>
        if errorsIs er .canceled then
          -- canceled contexts are fatal
          let t := connect { es with err := some er } rest
          (t.1, t.2.1, pre ++ t.2.2)
        else
          -- other execution errors are assumed to be non-fatal
          let t := connect es rest
          (t.1, t.2.1, pre ++ t.2.2)
      | .resp status ct body =>
        if 500 ≤ status then
          -- 5xx are assumed to be temporary
          let t := connect es rest
          (t.1, t.2.1, pre ++ TraceEv.closedRespBody :: t.2.2)
        else if status = 204 then
          -- 204 No Content is assumed to be fatal
          let t := connect { es with err := some .closed } rest
          (t.1, t.2.1, pre ++ TraceEv.closedRespBody :: t.2.2)
        else if status = 200 then
          if parseMediaTypeIsEventStream ct = true then
            ({ es with r := true, dec := some ⟨body, false⟩ }, rest,
              pre ++ [TraceEv.boundDecoder])
          else
            let t := connect { es with err := some (.invalidContentType ct) } rest
            (t.1, t.2.1, pre ++ TraceEv.closedRespBody :: t.2.2)
        else
          -- any other status is unrecoverable (note: body not closed, as in Go)
          let t := connect { es with err := some (.unrecoverableStatus status) } rest
          (t.1, t.2.1, pre ++ t.2.2)

/-- Result of `EventSource.Read`: Go returns `(Event, error)`; `stuck` is
the fuel/transcript-exhaustion artifact of the model. -/
inductive ReadRes where
  | ok (e : Event)
  | err (e : Event) (er : GoError)
  | stuck
deriving DecidableEq

/-- The sticky-state update of `Read` on a delivered event (Go lines
167-175): `lastEventID` changes when the event has a non-empty `ID` or
`ResetID`; `retry` changes when `Retry` parses via `strconv.Atoi`, to that
many milliseconds. -/
def applyEventState (es : ESState) (e : Event) : ESState :=
  let es₂ := if e.ID ≠ [] ∨ e.ResetID then { es with lastEventID := e.ID } else es
  if e.Retry ≠ [] then
    match atoi e.Retry with
    | some n => { es₂ with retry := wrap64 (n * 1000000) }
    | none => es₂
  else es₂

/-- The `for es.err == nil` loop of `EventSource.Read`, with fuel bounding
the number of `Decode` calls. -/
def readLoop : Nat → ESState → List Outcome → ReadRes × ESState × List Outcome × List TraceEv
  | 0, es, outs =>
    match es.err with
    | some er => (.err zeroEvent er, es, outs, [])
    | none => (.stuck, es, outs, [])
  | fuel + 1, es, outs =>
    match es.err with
    | some er => (.err zeroEvent er, es, outs, [])
    | none =>
      match es.dec with
      | none => (.stuck, es, outs, [])
      | some s =>
        let d := Decode s zeroEvent
        let es₁ := { es with dec := some d.2 }
        match d.1 with
        | .error er =>
          if errorsIs er .invalidEncoding then
            let t := readLoop fuel es₁ outs
            (t.1, t.2.1, t.2.2.1, TraceEv.decoded :: t.2.2.2)
          else
            let c := connect es₁ outs
            let t := readLoop fuel c.1 c.2.1
            (t.1, t.2.1, t.2.2.1, TraceEv.decoded :: (c.2.2 ++ t.2.2.2))
        | .ok e =>
          if e.Data = [] then
            let t := readLoop fuel es₁ outs
            (t.1, t.2.1, t.2.2.1, TraceEv.decoded :: t.2.2.2)
          else
            (.ok e, applyEventState es₁ e, outs, [TraceEv.decoded])

/-- `EventSource.Read`: connect first if no response body is bound, then
run the decode loop. -/
def Read (fuel : Nat) (es : ESState) (outs : List Outcome) :
    ReadRes × ESState × List Outcome × List TraceEv :=
  if es.r then readLoop fuel es outs
  else
    let c := connect es outs
    let t := readLoop fuel c.1 c.2.1
    (t.1, t.2.1, t.2.2.1, c.2.2 ++ t.2.2.2)

/-- `EventSource.Close`: record `ErrClosed` (the body-close side effect has
no state beyond `es.r`, which Go leaves set). -/
def Close (es : ESState) : ESState := { es with err := some .closed }

/-! ## Helper definitions used in theorem statements -/

/-- Conditions under which one encoded field line decodes back verbatim:
non-empty colon-free newline-free field name, newline-free value, neither
ending in `\r`, both valid UTF-8. -/
def cleanPair (p : List Nat × List Nat) : Prop :=
  p.1 ≠ [] ∧ 10 ∉ p.1 ∧ 58 ∉ p.1 ∧ p.1.getLast? ≠ some 13 ∧ validUtf8 p.1 = true ∧
    10 ∉ p.2 ∧ p.2.getLast? ≠ some 13 ∧ validUtf8 p.2 = true ∧ p.1.head? ≠ some 239

instance (p : List Nat × List Nat) : Decidable (cleanPair p) := by
  unfold cleanPair
  infer_instance

/-- The name-side half of `cleanPair` (all four wire field names satisfy it). -/
def cleanName (n : List Nat) : Prop :=
  n ≠ [] ∧ 10 ∉ n ∧ 58 ∉ n ∧ n.getLast? ≠ some 13 ∧ validUtf8 n = true ∧ n.head? ≠ some 239

instance (n : List Nat) : Decidable (cleanName n) := by
  unfold cleanName
  infer_instance

/-- The (field, value) lines `Encode` emits for an event, in emission
order: `id` / `retry` / `event` when present, then one `data` line per
newline-separated segment of `Data`. -/
def encFields (E : Event) : List (List Nat × List Nat) :=
  (if E.ResetID ∨ E.ID ≠ [] then [(ascii "id", E.ID)] else [])
    ++ ((if E.Retry ≠ [] then [(ascii "retry", E.Retry)] else [])
    ++ ((if E.Type' ≠ [] then [(ascii "event", E.Type')] else [])
    ++ (splitNL E.Data).map fun seg => (ascii "data", seg)))

/-- The wire bytes of a list of (field, value) lines. -/
def fieldLines (fs : List (List Nat × List Nat)) : List Nat :=
  (fs.map fun p => writeFieldLine p.1 p.2).flatten

/-- Join segments with `\n` separators: the inverse of `splitNL`. -/
def joinNL : List (List Nat) → List Nat
  | [] => []
  | s :: ss => s ++ (ss.map fun t => 10 :: t).flatten

/-- Is a trace event a retry wait? -/
def isWaited : TraceEv → Bool
  | .waited _ => true
  | _ => false

/-- Is a trace event an `es.r.Close()` of the previous connection? -/
def isClosedBody : TraceEv → Bool
  | .closedBody => true
  | _ => false

/-- Is a trace event an issued request? -/
def isSentRequest : TraceEv → Bool
  | .sentRequest _ => true
  | _ => false

/-! ## Consumption, totality and monotonicity of the decode loop -/

theorem breakNewline_length {bs pre post : List Nat}
    (h : breakNewline bs = some (pre, post)) : post.length < bs.length := by
  induction bs generalizing pre post with
  | nil => simp [breakNewline] at h
  | cons b rest ih =>
    rw [breakNewline] at h
    by_cases hb : b = 10
    · simp only [hb, if_pos rfl] at h
      cases h
      simp
    · simp only [if_neg hb] at h
      rcases hbn : breakNewline rest with _ | ⟨pre', post'⟩
      · rw [hbn] at h; cases h
      · rw [hbn] at h
        cases h
        have := ih hbn
        simp
        omega

theorem readLine_length {bs line rest : List Nat}
    (h : readLine bs = some (line, rest)) : rest.length < bs.length := by
  rcases bs with _ | ⟨b, bs'⟩
  · simp [readLine] at h
  · rw [readLine] at h
    rcases hbn : breakNewline (b :: bs') with _ | ⟨pre, post⟩
    · rw [hbn] at h
      cases h
      simp
    · rw [hbn] at h
      cases h
      exact breakNewline_length hbn

theorem stripBOM_length_le (bs : List Nat) : (stripBOM bs).length ≤ bs.length := by
  rcases bs with _ | ⟨b0, _ | ⟨b1, _ | ⟨b2, rest⟩⟩⟩
  · simp [stripBOM]
  · simp [stripBOM]
  · simp [stripBOM]
  · simp only [stripBOM]
    split
    · simp only [List.length_cons]
      omega
    · exact le_refl _

theorem bomAdjust_length_le (s : DecState) : (bomAdjust s).input.length ≤ s.input.length := by
  rw [bomAdjust]
  split
  · exact le_refl _
  · split
    · exact le_refl _
    · exact stripBOM_length_le s.input

theorem readFieldCore_ok_length {bs f v rest : List Nat}
    (h : readFieldCore bs = (.ok f v, rest)) : rest.length < bs.length := by
  rw [readFieldCore] at h
  rcases hl : readLine bs with _ | ⟨buf, rest'⟩
  · rw [hl] at h; cases h
  · rw [hl] at h
    have hlen := readLine_length hl
    by_cases hb : buf = []
    · simp only [hb, if_pos rfl] at h
      cases h
      exact hlen
    · simp only [if_neg hb] at h
      split at h <;> cases h
      exact hlen

theorem ReadField_ok_length {s : DecState} {f v : List Nat} {s' : DecState}
    (h : ReadField s = (.ok f v, s')) : s'.input.length < s.input.length := by
  rw [ReadField] at h
  rcases hc : readFieldCore (bomAdjust s).input with ⟨res, rest⟩
  rw [hc] at h
  cases h
  calc rest.length < (bomAdjust s).input.length := readFieldCore_ok_length hc
    _ ≤ s.input.length := bomAdjust_length_le s

theorem decodeLoop_isSome (fuel : Nat) :
    ∀ (s : DecState) (e : Event) (w : Bool), s.input.length < fuel →
      (decodeLoop fuel s e w).isSome := by
  induction fuel with
  | zero => intro s e w h; omega
  | succ n ih =>
    intro s e w h
    rw [decodeLoop]
    rcases hr : ReadField s with ⟨res, s'⟩
    cases res with
    | err er => simp
    | ok f v =>
      by_cases hb : f = [] ∧ v = []
      · simp [hb]
      · simp only [if_neg hb]
        apply ih
        have := ReadField_ok_length hr
        omega

theorem decodeLoop_mono :
    ∀ (fuel fuel' : Nat) (s : DecState) (e : Event) (w : Bool)
      (r : (Except GoError Event) × DecState),
      decodeLoop fuel s e w = some r → fuel ≤ fuel' → decodeLoop fuel' s e w = some r := by
  intro fuel
  induction fuel with
  | zero => intro fuel' s e w r h; simp [decodeLoop] at h
  | succ n ih =>
    intro fuel' s e w r h hle
    rcases fuel' with _ | m
    · omega
    rw [decodeLoop] at h ⊢
    rcases hr : ReadField s with ⟨res, s'⟩
    rw [hr] at h
    cases res with
    | err er => exact h
    | ok f v =>
      by_cases hb : f = [] ∧ v = []
      · simp only [if_pos hb] at h ⊢
        exact h
      · simp only [if_neg hb] at h ⊢
        exact ih m s' _ _ r h (by omega)

/-! ## Wire-format round-trip machinery -/

theorem breakNewline_append {l r : List Nat} (h : 10 ∉ l) :
    breakNewline (l ++ 10 :: r) = some (l, r) := by
  induction l with
  | nil => simp [breakNewline]
  | cons b t ih =>
    have hb : b ≠ 10 := fun hb => h (hb ▸ List.mem_cons_self b t)
    have ht : (10 : Nat) ∉ t := fun m => h (List.mem_cons_of_mem _ m)
    simp only [List.cons_append, breakNewline, if_neg hb, List.append_eq, ih ht]

theorem getLast?_append_right {a b : List Nat} (h : b ≠ []) :
    (a ++ b).getLast? = b.getLast? := by
  rcases b with _ | ⟨y, t⟩
  · exact absurd rfl h
  · rw [List.getLast?_append]
    rcases hb : (y :: t).getLast? with _ | x
    · rw [List.getLast?_eq_none_iff] at hb
      cases hb
    · rfl

theorem cutColon_no_colon {l : List Nat} (h : 58 ∉ l) : cutColon l = (l, []) := by
  induction l with
  | nil => rfl
  | cons b t ih =>
    have hb : b ≠ 58 := fun hb => h (hb ▸ List.mem_cons_self b t)
    have ht : (58 : Nat) ∉ t := fun m => h (List.mem_cons_of_mem _ m)
    simp [cutColon, if_neg hb, ih ht]

theorem cutColon_append {f v : List Nat} (h : 58 ∉ f) :
    cutColon (f ++ 58 :: v) = (f, v) := by
  induction f with
  | nil => simp [cutColon]
  | cons b t ih =>
    have hb : b ≠ 58 := fun hb => h (hb ▸ List.mem_cons_self b t)
    have ht : (58 : Nat) ∉ t := fun m => h (List.mem_cons_of_mem _ m)
    simp [cutColon, if_neg hb, ih ht]

theorem dropCR_eq {l : List Nat} (h : l.getLast? ≠ some 13) : dropCR l = l := by
  rw [dropCR, if_neg h]

theorem readLine_append {line r : List Nat} (h : 10 ∉ line) :
    readLine (line ++ 10 :: r) = some (dropCR line, r) := by
  rcases line with _ | ⟨b, t⟩
  · simp [readLine, breakNewline, dropCR]
  · have hbn : breakNewline (b :: (t ++ 10 :: r)) = some (b :: t, r) := by
      rw [← List.cons_append]
      exact breakNewline_append h
    simp only [List.cons_append, readLine, hbn]

theorem cleanPair_mk {n v : List Nat} (hn : cleanName n)
    (hv10 : (10 : Nat) ∉ v) (hvcr : v.getLast? ≠ some 13) (hvu : validUtf8 v = true) :
    cleanPair (n, v) :=
  ⟨hn.1, hn.2.1, hn.2.2.1, hn.2.2.2.1, hn.2.2.2.2.1, hv10, hvcr, hvu, hn.2.2.2.2.2⟩

theorem ReadField_line {name v r : List Nat}
    (hn : name ≠ []) (hn10 : 10 ∉ name) (hn58 : 58 ∉ name)
    (hncr : name.getLast? ≠ some 13) (hnu : validUtf8 name = true)
    (hv10 : 10 ∉ v) (hvcr : v.getLast? ≠ some 13) (hvu : validUtf8 v = true) :
    ReadField ⟨writeFieldLine name v ++ r, true⟩ = (.ok name v, ⟨r, true⟩) := by
  have hba : bomAdjust ⟨writeFieldLine name v ++ r, true⟩ = ⟨writeFieldLine name v ++ r, true⟩ := by
    rw [bomAdjust]
    simp
  rw [ReadField, hba]
  by_cases hv : v = []
  · subst hv
    rw [writeFieldLine, if_pos rfl]
    have hsh : (name ++ [10]) ++ r = name ++ 10 :: r := by simp
    rw [hsh, readFieldCore, readLine_append hn10, dropCR_eq hncr]
    simp only [if_neg hn]
    rw [cutColon_no_colon hn58]
    simp [stripLeadingSpace, hnu, show validUtf8 ([] : List Nat) = true from rfl]
  · rw [writeFieldLine, if_neg hv]
    have hsh : (name ++ 58 :: 32 :: (v ++ [10])) ++ r = (name ++ 58 :: 32 :: v) ++ 10 :: r := by
      simp
    rw [hsh, readFieldCore]
    have h10 : (10 : Nat) ∉ name ++ 58 :: 32 :: v := by
      intro hm
      rcases List.mem_append.1 hm with hm | hm
      · exact hn10 hm
      · rcases hm with _ | ⟨_, hm⟩
        rcases hm with _ | ⟨_, hm⟩
        exact hv10 hm
    rw [readLine_append h10]
    have hform : (58 : Nat) :: 32 :: v = [58, 32] ++ v := rfl
    have hlcr : (name ++ 58 :: 32 :: v).getLast? ≠ some 13 := by
      rw [hform, getLast?_append_right (by simp [hv] : [58, 32] ++ v ≠ []),
        getLast?_append_right hv]
      exact hvcr
    rw [dropCR_eq hlcr]
    have hne : name ++ 58 :: 32 :: v ≠ [] := by simp [hn]
    simp only [if_neg hne]
    rw [cutColon_append hn58]
    simp [stripLeadingSpace, hnu, hvu]

theorem decodeLoop_line_step {name v r : List Nat} {e : Event} {w : Bool} {fuel : Nat}
    (hc : cleanPair (name, v)) :
    decodeLoop (fuel + 1) ⟨writeFieldLine name v ++ r, true⟩ e w
      = decodeLoop fuel ⟨r, true⟩ (dispatch e w name v).1 (dispatch e w name v).2 := by
  obtain ⟨hn, hn10, hn58, hncr, hnu, hv10, hvcr, hvu, hnh⟩ := hc
  rw [decodeLoop, ReadField_line hn hn10 hn58 hncr hnu hv10 hvcr hvu]
  simp only [if_neg (fun hb : name = [] ∧ v = [] => hn hb.1)]

theorem decodeLoop_blank {r : List Nat} {e : Event} {w : Bool} {fuel : Nat} :
    decodeLoop (fuel + 1) ⟨10 :: r, true⟩ e w = some (.ok e, ⟨r, true⟩) := by
  have hrf : ReadField ⟨10 :: r, true⟩ = (.ok [] [], ⟨r, true⟩) := by
    rw [ReadField]
    simp [bomAdjust, readFieldCore, readLine, breakNewline, dropCR]
  rw [decodeLoop, hrf]
  simp

theorem fieldLines_append (a b : List (List Nat × List Nat)) :
    fieldLines (a ++ b) = fieldLines a ++ fieldLines b := by
  simp [fieldLines]

theorem decodeLoop_fieldLines {fs : List (List Nat × List Nat)}
    (hc : ∀ p ∈ fs, cleanPair p) :
    ∀ (fuel : Nat) (r : List Nat) (e : Event) (w : Bool),
      decodeLoop (fs.length + fuel) ⟨fieldLines fs ++ r, true⟩ e w
        = decodeLoop fuel ⟨r, true⟩ (foldDispatch e w fs).1 (foldDispatch e w fs).2 := by
  induction fs with
  | nil =>
    intro fuel r e w
    simp [fieldLines, foldDispatch]
  | cons p fs ih =>
    intro fuel r e w
    rcases p with ⟨name, v⟩
    have hfl : fieldLines ((name, v) :: fs) ++ r = writeFieldLine name v ++ (fieldLines fs ++ r) := by
      simp [fieldLines]
    rw [hfl]
    have hlen : ((name, v) :: fs).length + fuel = (fs.length + fuel) + 1 := by
      simp
      omega
    rw [hlen, decodeLoop_line_step (hc _ (List.mem_cons_self _ _)),
      ih (fun q hq => hc q (List.mem_cons_of_mem _ hq))]
    simp [foldDispatch]

/-- Any sufficient fuel computes `Decode`. -/
theorem Decode_eq {s : DecState} {e : Event} {r : (Except GoError Event) × DecState}
    (fuel : Nat) (h : decodeLoop fuel s { e with Type' := ascii "message" } false = some r) :
    Decode s e = r := by
  have htot := decodeLoop_isSome (s.input.length + 1) s { e with Type' := ascii "message" } false
    (by omega)
  rcases hr' : decodeLoop (s.input.length + 1) s { e with Type' := ascii "message" } false
    with _ | r'
  · rw [hr'] at htot; simp at htot
  · have h₁ := decodeLoop_mono _ (max fuel (s.input.length + 1)) _ _ _ _ h (le_max_left _ _)
    have h₂ := decodeLoop_mono _ (max fuel (s.input.length + 1)) _ _ _ _ hr' (le_max_right _ _)
    rw [h₁] at h₂
    cases h₂
    rw [Decode, hr']

/-! ## `splitNL` and `joinNL` -/

theorem splitNL_ne_nil (l : List Nat) : splitNL l ≠ [] := by
  rcases l with _ | ⟨b, t⟩
  · simp [splitNL]
  · rw [splitNL]
    by_cases hb : b = 10
    · simp [hb]
    · simp only [if_neg hb]
      rcases splitNL t with _ | ⟨s, ss⟩ <;> simp

theorem splitNL_no_newline : ∀ (l : List Nat), ∀ seg ∈ splitNL l, (10 : Nat) ∉ seg := by
  intro l
  induction l with
  | nil =>
    intro seg hseg
    simp [splitNL] at hseg
    simp [hseg]
  | cons b t ih =>
    intro seg hseg
    rw [splitNL] at hseg
    by_cases hb : b = 10
    · rw [if_pos hb] at hseg
      rcases List.mem_cons.1 hseg with hseg | hseg
      · simp [hseg]
      · exact ih seg hseg
    · rw [if_neg hb] at hseg
      rcases hsp : splitNL t with _ | ⟨s, ss⟩
      · exact absurd hsp (splitNL_ne_nil t)
      · rw [hsp] at hseg
        rcases List.mem_cons.1 hseg with hseg | hseg
        · subst hseg
          intro hm
          rcases List.mem_cons.1 hm with hm | hm
          · exact hb hm.symm
          · exact ih s (by rw [hsp]; exact List.mem_cons_self s ss) hm
        · exact ih seg (by rw [hsp]; exact List.mem_cons_of_mem _ hseg)

theorem splitNL_single {l : List Nat} (h : (10 : Nat) ∉ l) : splitNL l = [l] := by
  induction l with
  | nil => rfl
  | cons b t ih =>
    have hb : b ≠ 10 := fun hb => h (hb ▸ List.mem_cons_self b t)
    have ht : (10 : Nat) ∉ t := fun m => h (List.mem_cons_of_mem _ m)
    rw [splitNL, if_neg hb, ih ht]

theorem flatten_map_cons_eq_joinNL {S : List (List Nat)} (h : S ≠ []) :
    (S.map fun t => 10 :: t).flatten = 10 :: joinNL S := by
  rcases S with _ | ⟨s, ss⟩
  · exact absurd rfl h
  · simp [joinNL]

theorem joinNL_splitNL (l : List Nat) : joinNL (splitNL l) = l := by
  induction l with
  | nil => rfl
  | cons b t ih =>
    rw [splitNL]
    by_cases hb : b = 10
    · subst hb
      rw [if_pos rfl, joinNL, List.nil_append,
        flatten_map_cons_eq_joinNL (splitNL_ne_nil t), ih]
    · rw [if_neg hb]
      rcases hsp : splitNL t with _ | ⟨s, ss⟩
      · exact absurd hsp (splitNL_ne_nil t)
      · have hih : joinNL (s :: ss) = t := by rw [← hsp]; exact ih
        rw [joinNL] at hih
        show joinNL ((b :: s) :: ss) = b :: t
        rw [joinNL, List.cons_append, hih]

/-! ## Shape of `Encode` output -/

theorem WriteField_eq {name value : List Nat}
    (hnu : validUtf8 name = true) (hvu : validUtf8 value = true) :
    WriteField name value
      = .ok (fieldLines ((splitNL value).map fun seg => (name, dropCR seg))) := by
  rw [WriteField, if_pos (show (validUtf8 name && validUtf8 value) = true by rw [hnu, hvu]; rfl)]
  rw [fieldLines, List.map_map]
  rfl

theorem WriteField_single {name value : List Nat}
    (hnu : validUtf8 name = true) (hvu : validUtf8 value = true)
    (h10 : (10 : Nat) ∉ value) (hcr : value.getLast? ≠ some 13) :
    WriteField name value = .ok (writeFieldLine name value) := by
  rw [WriteField_eq hnu hvu, splitNL_single h10]
  simp [fieldLines, dropCR_eq hcr]

theorem Encode_clean {E : Event}
    (hIu : validUtf8 E.ID = true) (hI10 : (10 : Nat) ∉ E.ID) (hIcr : E.ID.getLast? ≠ some 13)
    (hRu : validUtf8 E.Retry = true) (hR10 : (10 : Nat) ∉ E.Retry)
    (hRcr : E.Retry.getLast? ≠ some 13)
    (hTu : validUtf8 E.Type' = true) (hT10 : (10 : Nat) ∉ E.Type')
    (hTcr : E.Type'.getLast? ≠ some 13)
    (hDu : validUtf8 E.Data = true)
    (hseg : ∀ seg ∈ splitNL E.Data, seg.getLast? ≠ some 13) :
    Encode E = .ok (fieldLines (encFields E) ++ [10]) := by
  have hidp : (if E.ResetID ∨ E.ID ≠ [] then WriteField (ascii "id") E.ID else .ok [])
      = Except.ok (fieldLines (if E.ResetID ∨ E.ID ≠ [] then [(ascii "id", E.ID)] else [])) := by
    by_cases h : E.ResetID ∨ E.ID ≠ []
    · rw [if_pos h, if_pos h, WriteField_single (by decide) hIu hI10 hIcr]
      simp [fieldLines]
    · rw [if_neg h, if_neg h]
      simp [fieldLines]
  have hrep : (if E.Retry ≠ [] then WriteField (ascii "retry") E.Retry else .ok [])
      = Except.ok (fieldLines (if E.Retry ≠ [] then [(ascii "retry", E.Retry)] else [])) := by
    by_cases h : E.Retry ≠ []
    · rw [if_pos h, if_pos h, WriteField_single (by decide) hRu hR10 hRcr]
      simp [fieldLines]
    · rw [if_neg h, if_neg h]
      simp [fieldLines]
  have hevp : (if E.Type' ≠ [] then WriteField (ascii "event") E.Type' else .ok [])
      = Except.ok (fieldLines (if E.Type' ≠ [] then [(ascii "event", E.Type')] else [])) := by
    by_cases h : E.Type' ≠ []
    · rw [if_pos h, if_pos h, WriteField_single (by decide) hTu hT10 hTcr]
      simp [fieldLines]
    · rw [if_neg h, if_neg h]
      simp [fieldLines]
  have hdap : WriteField (ascii "data") E.Data
      = Except.ok (fieldLines ((splitNL E.Data).map fun seg => (ascii "data", seg))) := by
    rw [WriteField_eq (by decide) hDu]
    congr 2
    exact List.map_congr_left fun seg hsg => by rw [dropCR_eq (hseg seg hsg)]
  rw [Encode, hidp, hrep, hevp, hdap, encFields]
  simp [Except.bind, fieldLines_append, List.append_assoc]

/-! ## Computing the dispatch fold -/

theorem foldDispatch_append (a b : List (List Nat × List Nat)) :
    ∀ (e : Event) (w : Bool),
      foldDispatch e w (a ++ b)
        = foldDispatch (foldDispatch e w a).1 (foldDispatch e w a).2 b := by
  induction a with
  | nil => intro e w; simp [foldDispatch]
  | cons p ps ih =>
    intro e w
    rcases p with ⟨f, v⟩
    simp only [List.cons_append, foldDispatch]
    exact ih _ _

theorem dispatch_id (e : Event) (w : Bool) (v : List Nat) :
    dispatch e w (ascii "id") v
      = (if v = [] then { e with ID := v, ResetID := true } else { e with ID := v }, w) := by
  rw [dispatch, if_pos rfl]

theorem dispatch_retry (e : Event) (w : Bool) (v : List Nat) :
    dispatch e w (ascii "retry") v = ({ e with Retry := v }, w) := by
  rw [dispatch, if_neg (by decide), if_pos rfl]

theorem dispatch_event (e : Event) (w : Bool) (v : List Nat) :
    dispatch e w (ascii "event") v = ({ e with Type' := v }, w) := by
  rw [dispatch, if_neg (by decide), if_neg (by decide), if_pos rfl]

theorem dispatch_data (e : Event) (w : Bool) (v : List Nat) :
    dispatch e w (ascii "data") v
      = (if w then { e with Data := e.Data ++ 10 :: v } else { e with Data := e.Data ++ v },
        true) := by
  rw [dispatch, if_neg (by decide), if_neg (by decide), if_neg (by decide), if_pos rfl]

theorem foldDispatch_data_true (segs : List (List Nat)) :
    ∀ e : Event,
      foldDispatch e true (segs.map fun seg => (ascii "data", seg))
        = ({ e with Data := e.Data ++ (segs.map fun t => 10 :: t).flatten }, true) := by
  induction segs with
  | nil => intro e; simp [foldDispatch]
  | cons s ss ih =>
    intro e
    simp only [List.map_cons, foldDispatch, dispatch_data, if_pos rfl]
    rw [ih]
    simp

theorem foldDispatch_data_false {segs : List (List Nat)} (h : segs ≠ []) (e : Event) :
    foldDispatch e false (segs.map fun seg => (ascii "data", seg))
      = ({ e with Data := e.Data ++ joinNL segs }, true) := by
  rcases segs with _ | ⟨s, ss⟩
  · exact absurd rfl h
  · simp only [List.map_cons, foldDispatch, dispatch_data, if_neg (Bool.false_ne_true)]
    rw [foldDispatch_data_true]
    simp [joinNL]

/-! ## The first `ReadField` call and the BOM check -/

theorem bomAdjust_checked {s : DecState} (h : s.checkedBOM = true) : bomAdjust s = s := by
  rw [bomAdjust, if_pos h]

theorem bomAdjust_no_bom {b : Nat} {rest : List Nat} (h : ¬b = 239) :
    bomAdjust ⟨b :: rest, false⟩ = ⟨b :: rest, true⟩ := by
  rcases rest with _ | ⟨b1, _ | ⟨b2, r⟩⟩ <;> simp [bomAdjust, stripBOM, h]

theorem decodeLoop_no_bom {b : Nat} {rest : List Nat} {e : Event} {w : Bool} {fuel : Nat}
    (h : ¬b = 239) :
    decodeLoop fuel ⟨b :: rest, false⟩ e w = decodeLoop fuel ⟨b :: rest, true⟩ e w := by
  rcases fuel with _ | n
  · rfl
  · have hrf : ReadField ⟨b :: rest, false⟩ = ReadField ⟨b :: rest, true⟩ := by
      have hbt : bomAdjust ⟨b :: rest, true⟩ = ⟨b :: rest, true⟩ := bomAdjust_checked rfl
      rw [ReadField, ReadField, bomAdjust_no_bom h, hbt]
    rw [decodeLoop, decodeLoop, hrf]

theorem writeFieldLine_eq_append (n v : List Nat) : ∃ t, writeFieldLine n v = n ++ t := by
  rw [writeFieldLine]
  split
  · exact ⟨[10], rfl⟩
  · exact ⟨58 :: 32 :: (v ++ [10]), rfl⟩

theorem fieldLines_head {F : List (List Nat × List Nat)} (hne : F ≠ [])
    (hc : ∀ p ∈ F, cleanPair p) :
    ∃ b t, fieldLines F = b :: t ∧ ¬b = 239 := by
  rcases F with _ | ⟨p, ps⟩
  · exact absurd rfl hne
  · obtain ⟨hn, _, _, _, _, _, _, _, hnh⟩ := hc p (List.mem_cons_self p ps)
    rcases hp : p.1 with _ | ⟨b, nt⟩
    · exact absurd hp hn
    · obtain ⟨t, ht⟩ := writeFieldLine_eq_append p.1 p.2
      refine ⟨b, (nt ++ t) ++ fieldLines ps, ?_, ?_⟩
      · show fieldLines (p :: ps) = _
        rw [fieldLines]
        simp only [List.map_cons, List.flatten_cons]
        rw [ht, hp]
        show (b :: nt) ++ t ++ fieldLines ps = b :: ((nt ++ t) ++ fieldLines ps)
        simp [List.append_assoc]
      · intro hb
        exact hnh (by rw [hp, hb]; rfl)

/-! ## The round trip -/

theorem encode_decode (E : Event)
    (_hD : E.Data ≠ [])
    (hRI : ¬(E.ResetID = true ∧ E.ID ≠ []))
    (hT : E.Type' ≠ [])
    (hIu : validUtf8 E.ID = true) (hI10 : (10 : Nat) ∉ E.ID) (hIcr : E.ID.getLast? ≠ some 13)
    (hRu : validUtf8 E.Retry = true) (hR10 : (10 : Nat) ∉ E.Retry)
    (hRcr : E.Retry.getLast? ≠ some 13)
    (hTu : validUtf8 E.Type' = true) (hT10 : (10 : Nat) ∉ E.Type')
    (hTcr : E.Type'.getLast? ≠ some 13)
    (hDu : validUtf8 E.Data = true)
    (hseg : ∀ seg ∈ splitNL E.Data, seg.getLast? ≠ some 13 ∧ validUtf8 seg = true) :
    ∃ B, Encode E = .ok B ∧ Decode ⟨B, false⟩ zeroEvent = (.ok E, ⟨[], true⟩) := by
  have hB := Encode_clean hIu hI10 hIcr hRu hR10 hRcr hTu hT10 hTcr hDu
    (fun seg hs => (hseg seg hs).1)
  refine ⟨_, hB, ?_⟩
  have hclean : ∀ p ∈ encFields E, cleanPair p := by
    rw [encFields]
    intro p hp
    rcases List.mem_append.1 hp with hp | hp
    · by_cases h : E.ResetID ∨ E.ID ≠ []
      · rw [if_pos h] at hp
        rw [List.mem_singleton.1 hp]
        exact cleanPair_mk (by decide) hI10 hIcr hIu
      · rw [if_neg h] at hp
        cases hp
    rcases List.mem_append.1 hp with hp | hp
    · by_cases h : E.Retry ≠ []
      · rw [if_pos h] at hp
        rw [List.mem_singleton.1 hp]
        exact cleanPair_mk (by decide) hR10 hRcr hRu
      · rw [if_neg h] at hp
        cases hp
    rcases List.mem_append.1 hp with hp | hp
    · by_cases h : E.Type' ≠ []
      · rw [if_pos h] at hp
        rw [List.mem_singleton.1 hp]
        exact cleanPair_mk (by decide) hT10 hTcr hTu
      · rw [if_neg h] at hp
        cases hp
    · obtain ⟨seg, hsg, rfl⟩ := List.mem_map.1 hp
      exact cleanPair_mk (by decide) (splitNL_no_newline E.Data seg hsg)
        (hseg seg hsg).1 (hseg seg hsg).2
  have hfold : foldDispatch ⟨ascii "message", [], [], [], false⟩ false (encFields E)
      = (E, true) := by
    rw [encFields, foldDispatch_append]
    have h1 : foldDispatch ⟨ascii "message", [], [], [], false⟩ false
        (if E.ResetID ∨ E.ID ≠ [] then [(ascii "id", E.ID)] else [])
        = (⟨ascii "message", E.ID, [], [], E.ResetID⟩, false) := by
      by_cases h : E.ResetID ∨ E.ID ≠ []
      · rw [if_pos h]
        by_cases hid0 : E.ID = []
        · have hR : E.ResetID = true := by
            rcases h with h | h
            · exact h
            · exact absurd hid0 h
          simp [foldDispatch, dispatch_id, hid0, hR]
        · have hR : E.ResetID = false := by
            cases hEr : E.ResetID
            · rfl
            · exact absurd ⟨hEr, hid0⟩ hRI
          simp [foldDispatch, dispatch_id, hid0, hR]
      · rw [if_neg h]
        have h1 : E.ResetID = false := by
          cases hEr : E.ResetID
          · rfl
          · exact absurd (Or.inl hEr) h
        have h2 : E.ID = [] := by
          by_cases hid0 : E.ID = []
          · exact hid0
          · exact absurd (Or.inr hid0) h
        simp [foldDispatch, h1, h2]
    rw [h1, foldDispatch_append]
    have h2 : foldDispatch ⟨ascii "message", E.ID, [], [], E.ResetID⟩ false
        (if E.Retry ≠ [] then [(ascii "retry", E.Retry)] else [])
        = (⟨ascii "message", E.ID, E.Retry, [], E.ResetID⟩, false) := by
      by_cases h : E.Retry ≠ []
      · rw [if_pos h]
        simp [foldDispatch, dispatch_retry]
      · rw [if_neg h]
        rw [not_not] at h
        simp [foldDispatch, h]
    rw [h2, foldDispatch_append]
    have h3 : foldDispatch ⟨ascii "message", E.ID, E.Retry, [], E.ResetID⟩ false
        (if E.Type' ≠ [] then [(ascii "event", E.Type')] else [])
        = (⟨E.Type', E.ID, E.Retry, [], E.ResetID⟩, false) := by
      rw [if_pos hT]
      simp [foldDispatch, dispatch_event]
    rw [h3, foldDispatch_data_false (splitNL_ne_nil E.Data), joinNL_splitNL]
    simp
  have hdl : decodeLoop ((encFields E).length + 1)
      ⟨fieldLines (encFields E) ++ [10], true⟩ ⟨ascii "message", [], [], [], false⟩ false
      = some (.ok E, ⟨[], true⟩) := by
    rw [decodeLoop_fieldLines hclean 1 [10] ⟨ascii "message", [], [], [], false⟩ false, hfold]
    exact decodeLoop_blank
  have hFne : encFields E ≠ [] := by
    rw [encFields]
    intro h
    have h4 := (List.append_eq_nil.1 ((List.append_eq_nil.1 ((List.append_eq_nil.1 h).2)).2)).2
    exact splitNL_ne_nil E.Data (List.map_eq_nil_iff.1 h4)
  obtain ⟨b, t, hbt, hb239⟩ := fieldLines_head hFne hclean
  have hcons : fieldLines (encFields E) ++ [10] = b :: (t ++ [10]) := by
    rw [hbt]
    rfl
  have hdl' : decodeLoop ((encFields E).length + 1)
      ⟨fieldLines (encFields E) ++ [10], false⟩ ⟨ascii "message", [], [], [], false⟩ false
      = some (.ok E, ⟨[], true⟩) := by
    rw [hcons] at hdl ⊢
    rw [decodeLoop_no_bom hb239]
    exact hdl
  exact Decode_eq ((encFields E).length + 1) hdl'

/-! ## `Decode` as a fold over the fields of the block -/

theorem decodeLoop_eq_decodeFields :
    ∀ (fuel : Nat) (s : DecState) (e : Event) (w : Bool),
      decodeLoop fuel s e w
        = match decodeFields fuel s with
          | none => none
          | some (.error er, s') => some (.error er, s')
          | some (.ok fs, s') => some (.ok (foldDispatch e w fs).1, s') := by
  intro fuel
  induction fuel with
  | zero => intro s e w; rfl
  | succ n ih =>
    intro s e w
    rw [decodeLoop, decodeFields]
    rcases hr : ReadField s with ⟨res, s'⟩
    cases res with
    | err er => rfl
    | ok f v =>
      by_cases hb : f = [] ∧ v = []
      · simp only [if_pos hb]
        rfl
      · simp only [if_neg hb]
        rw [ih]
        rcases hdf : decodeFields n s' with _ | ⟨res₂, s''⟩
        · rfl
        · cases res₂ with
          | error er => rfl
          | ok fs => simp [foldDispatch]

theorem Decode_decodeFieldsRun {s : DecState} {fs : List (List Nat × List Nat)} {s' : DecState}
    (h : decodeFieldsRun s = (.ok fs, s')) (e : Event) :
    Decode s e = (.ok (foldDispatch { e with Type' := ascii "message" } false fs).1, s') := by
  rw [decodeFieldsRun] at h
  rcases hdf : decodeFields (s.input.length + 1) s with _ | ⟨res, s''⟩
  · rw [hdf] at h
    simp at h
  · rw [hdf] at h
    cases res with
    | error er => simp at h
    | ok fs₀ =>
      obtain ⟨h1, h2⟩ := Prod.mk.injEq .. ▸ h
      cases Except.ok.injEq .. ▸ h1
      subst h2
      rw [Decode, decodeLoop_eq_decodeFields, hdf]

theorem dispatch_not_id {e : Event} {w : Bool} {f v : List Nat} (h : f ≠ ascii "id") :
    (dispatch e w f v).1.ID = e.ID ∧ (dispatch e w f v).1.ResetID = e.ResetID := by
  rw [dispatch, if_neg h]
  split_ifs <;> exact ⟨rfl, rfl⟩

theorem dispatch_not_retry {e : Event} {w : Bool} {f v : List Nat} (h : f ≠ ascii "retry") :
    (dispatch e w f v).1.Retry = e.Retry := by
  rw [dispatch]
  split_ifs <;> rfl

theorem dispatch_not_event {e : Event} {w : Bool} {f v : List Nat} (h : f ≠ ascii "event") :
    (dispatch e w f v).1.Type' = e.Type' := by
  rw [dispatch]
  split_ifs <;> rfl

theorem dispatch_not_data {e : Event} {w : Bool} {f v : List Nat} (h : f ≠ ascii "data") :
    (dispatch e w f v).1.Data = e.Data ∧ (dispatch e w f v).2 = w := by
  rw [dispatch]
  split_ifs <;> exact ⟨rfl, rfl⟩

theorem dispatch_data_append (e : Event) (w : Bool) (f v : List Nat) :
    ∃ t, (dispatch e w f v).1.Data = e.Data ++ t := by
  rw [dispatch]
  split_ifs <;>
    first
      | exact ⟨[], (List.append_nil e.Data).symm⟩
      | exact ⟨10 :: v, rfl⟩
      | exact ⟨v, rfl⟩

theorem dispatch_resetID_mono {e : Event} {w : Bool} {f v : List Nat}
    (h : e.ResetID = true) : (dispatch e w f v).1.ResetID = true := by
  rw [dispatch]
  split_ifs <;> first | rfl | exact h

theorem foldDispatch_no_id {fs : List (List Nat × List Nat)}
    (h : ∀ p ∈ fs, p.1 ≠ ascii "id") :
    ∀ (e : Event) (w : Bool),
      (foldDispatch e w fs).1.ID = e.ID ∧ (foldDispatch e w fs).1.ResetID = e.ResetID := by
  induction fs with
  | nil => intro e w; exact ⟨rfl, rfl⟩
  | cons p ps ih =>
    intro e w
    rcases p with ⟨f, v⟩
    rw [foldDispatch]
    have hd := dispatch_not_id (e := e) (w := w) (v := v) (h _ (List.mem_cons_self _ _))
    have hi := ih (fun q hq => h q (List.mem_cons_of_mem _ hq)) (dispatch e w f v).1
      (dispatch e w f v).2
    exact ⟨hi.1.trans hd.1, hi.2.trans hd.2⟩

theorem foldDispatch_no_retry {fs : List (List Nat × List Nat)}
    (h : ∀ p ∈ fs, p.1 ≠ ascii "retry") :
    ∀ (e : Event) (w : Bool), (foldDispatch e w fs).1.Retry = e.Retry := by
  induction fs with
  | nil => intro e w; rfl
  | cons p ps ih =>
    intro e w
    rcases p with ⟨f, v⟩
    rw [foldDispatch]
    exact (ih (fun q hq => h q (List.mem_cons_of_mem _ hq)) _ _).trans
      (dispatch_not_retry (h _ (List.mem_cons_self _ _)))

theorem foldDispatch_no_event {fs : List (List Nat × List Nat)}
    (h : ∀ p ∈ fs, p.1 ≠ ascii "event") :
    ∀ (e : Event) (w : Bool), (foldDispatch e w fs).1.Type' = e.Type' := by
  induction fs with
  | nil => intro e w; rfl
  | cons p ps ih =>
    intro e w
    rcases p with ⟨f, v⟩
    rw [foldDispatch]
    exact (ih (fun q hq => h q (List.mem_cons_of_mem _ hq)) _ _).trans
      (dispatch_not_event (h _ (List.mem_cons_self _ _)))

theorem foldDispatch_no_data {fs : List (List Nat × List Nat)}
    (h : ∀ p ∈ fs, p.1 ≠ ascii "data") :
    ∀ (e : Event) (w : Bool), (foldDispatch e w fs).1.Data = e.Data := by
  induction fs with
  | nil => intro e w; rfl
  | cons p ps ih =>
    intro e w
    rcases p with ⟨f, v⟩
    rw [foldDispatch]
    exact (ih (fun q hq => h q (List.mem_cons_of_mem _ hq)) _ _).trans
      (dispatch_not_data (h _ (List.mem_cons_self _ _))).1

theorem foldDispatch_data_extends (fs : List (List Nat × List Nat)) :
    ∀ (e : Event) (w : Bool), ∃ t, (foldDispatch e w fs).1.Data = e.Data ++ t := by
  induction fs with
  | nil => intro e w; exact ⟨[], (List.append_nil e.Data).symm⟩
  | cons p ps ih =>
    intro e w
    rcases p with ⟨f, v⟩
    rw [foldDispatch]
    obtain ⟨t₁, ht₁⟩ := dispatch_data_append e w f v
    obtain ⟨t₂, ht₂⟩ := ih (dispatch e w f v).1 (dispatch e w f v).2
    exact ⟨t₁ ++ t₂, by rw [ht₂, ht₁, List.append_assoc]⟩

theorem foldDispatch_resetID_mono {fs : List (List Nat × List Nat)} :
    ∀ {e : Event} {w : Bool}, e.ResetID = true → (foldDispatch e w fs).1.ResetID = true := by
  induction fs with
  | nil => intro e w h; exact h
  | cons p ps ih =>
    intro e w h
    rcases p with ⟨f, v⟩
    rw [foldDispatch]
    exact ih (dispatch_resetID_mono h)

/-! ## Characterizing the `ReadField` boundary result -/

theorem cutColon_fst_nil {buf : List Nat} (hb : buf ≠ []) (h : (cutColon buf).1 = []) :
    ∃ t, buf = 58 :: t ∧ (cutColon buf).2 = t := by
  rcases buf with _ | ⟨b, t⟩
  · exact absurd rfl hb
  · rw [cutColon] at h ⊢
    by_cases h58 : b = 58
    · subst h58
      exact ⟨t, rfl, by rw [if_pos rfl]⟩
    · rw [if_neg h58] at h
      simp at h

theorem stripLeadingSpace_nil {t : List Nat} (h : stripLeadingSpace t = []) :
    t = [] ∨ t = [32] := by
  rcases t with _ | ⟨b, t'⟩
  · exact Or.inl rfl
  · rw [stripLeadingSpace] at h
    by_cases h32 : b = 32
    · rw [if_pos h32] at h
      subst h32
      subst h
      exact Or.inr rfl
    · rw [if_neg h32] at h
      cases h

theorem readFieldCore_boundary (bs : List Nat) :
    (readFieldCore bs).1 = FieldRes.ok [] []
      ↔ match readLine bs with
        | some (line, _) => line = [] ∨ line = [58] ∨ line = [58, 32]
        | none => False := by
  rw [readFieldCore]
  rcases hl : readLine bs with _ | ⟨buf, rest⟩
  · simp
  · by_cases hb : buf = []
    · simp [hb]
    · simp only [if_neg hb]
      constructor
      · intro h
        split_ifs at h with hv
        simp only [FieldRes.ok.injEq] at h
        obtain ⟨t, hbuf, ht⟩ := cutColon_fst_nil hb h.1
        rcases stripLeadingSpace_nil (ht ▸ h.2) with ht0 | ht0 <;> subst ht0 <;> simp [hbuf]
      · intro h
        rcases h with h | h | h
        · exact absurd h hb
        · subst h
          simp [cutColon, stripLeadingSpace,
            show validUtf8 ([] : List Nat) = true from rfl]
        · subst h
          simp [cutColon, stripLeadingSpace,
            show validUtf8 ([] : List Nat) = true from rfl]

/-! ## Shape of `Decode` errors -/

theorem decodeLoop_err_step {s : DecState} {e : Event} {w : Bool} {fuel : Nat}
    {er : GoError} {s' : DecState} (h : ReadField s = (.err er, s')) :
    decodeLoop (fuel + 1) s e w = some (.error (.readFieldWrap er), s') := by
  rw [decodeLoop, h]

theorem decodeLoop_error_shape :
    ∀ (fuel : Nat) (s : DecState) (e : Event) (w : Bool) (er : GoError) (s' : DecState),
      decodeLoop fuel s e w = some (.error er, s') → ∃ er₀, er = .readFieldWrap er₀ := by
  intro fuel
  induction fuel with
  | zero => intro s e w er s' h; simp [decodeLoop] at h
  | succ n ih =>
    intro s e w er s' h
    rw [decodeLoop] at h
    rcases hr : ReadField s with ⟨res, s₁⟩
    rw [hr] at h
    cases res with
    | err er₁ =>
      simp only [Option.some.injEq, Prod.mk.injEq] at h
      exact ⟨er₁, (Except.error.injEq .. ▸ h.1).symm⟩
    | ok f v =>
      by_cases hbd : f = [] ∧ v = []
      · simp [if_pos hbd] at h
      · simp only [if_neg hbd] at h
        exact ih _ _ _ _ _ h

theorem errorsIs_self (e : GoError) : errorsIs e e = true := by
  cases e <;> simp [errorsIs]

theorem Decode_error_shape {s : DecState} {e : Event} {er : GoError} {s' : DecState}
    (h : Decode s e = (.error er, s')) :
    ∃ er₀, er = .readFieldWrap er₀ ∧ errorsIs er er₀ = true := by
  rw [Decode] at h
  rcases hdl : decodeLoop (s.input.length + 1) s { e with Type' := ascii "message" } false
    with _ | r
  · rw [hdl] at h
    simp only [Prod.mk.injEq] at h
    obtain ⟨h1, h2⟩ := h
    injection h1 with h1
    exact ⟨.eof, h1.symm, by rw [← h1]; decide⟩
  · rw [hdl] at h
    subst h
    obtain ⟨er₀, her₀⟩ := decodeLoop_error_shape _ _ _ _ _ _ hdl
    refine ⟨er₀, her₀, ?_⟩
    subst her₀
    simp [errorsIs, errorsIs_self]

/-! ## Step equations of `connect` (the classification table) -/

theorem connect_err_some {es : ESState} {outs : List Outcome} {er : GoError}
    (h : es.err = some er) : connect es outs = (es, outs, []) := by
  cases outs with
  | nil => rw [connect]
  | cons o rest => rw [connect, h]

theorem connect_nil (es : ESState) : connect es [] = (es, [], []) := by
  rw [connect]

/-- A canceled transport error is fatal: the error is recorded and no
further outcome is consumed. -/
theorem connect_cancel {es : ESState} {er : GoError} {rest : List Outcome}
    (h : es.err = none) (hc : errorsIs er .canceled = true) :
    connect es (.err er :: rest) = ({ es with err := some er }, rest, connectPre es) := by
  rw [connect, h]
  simp only [if_pos hc, connect_err_some (show ESState.err { es with err := some er }
    = some er from rfl)]
  simp

/-- Any other transport error is recoverable: the loop retries with an
unchanged state and no recorded error. -/
theorem connect_transient {es : ESState} {er : GoError} {rest : List Outcome}
    (h : es.err = none) (hc : errorsIs er .canceled = false) :
    connect es (.err er :: rest)
      = ((connect es rest).1, (connect es rest).2.1,
        connectPre es ++ (connect es rest).2.2) := by
  rw [connect, h]
  simp [hc]

/-- A status `≥ 500` is recoverable: the response body is closed and the
loop retries with an unchanged state. -/
theorem connect_5xx {es : ESState} {st : Nat} {ct body : List Nat} {rest : List Outcome}
    (h : es.err = none) (h5 : 500 ≤ st) :
    connect es (.resp st ct body :: rest)
      = ((connect es rest).1, (connect es rest).2.1,
        connectPre es ++ TraceEv.closedRespBody :: (connect es rest).2.2) := by
  rw [connect, h]
  simp [if_pos h5]

/-- Status 204 is fatal: body closed, `ErrClosed` recorded, loop exits. -/
theorem connect_204 {es : ESState} {ct body : List Nat} {rest : List Outcome}
    (h : es.err = none) :
    connect es (.resp 204 ct body :: rest)
      = ({ es with err := some .closed }, rest,
        connectPre es ++ [TraceEv.closedRespBody]) := by
  rw [connect, h]
  simp only [show ¬(500 ≤ 204) by omega, if_neg, if_false, reduceIte,
    connect_err_some (show ESState.err { es with err := some GoError.closed }
      = some GoError.closed from rfl)]

/-- Status 200 with media type `text/event-stream` is success: a fresh
decoder is bound to the body and `connect` returns at once. -/
theorem connect_200_ok {es : ESState} {ct body : List Nat} {rest : List Outcome}
    (h : es.err = none) (hmt : parseMediaTypeIsEventStream ct = true) :
    connect es (.resp 200 ct body :: rest)
      = ({ es with r := true, dec := some ⟨body, false⟩ }, rest,
        connectPre es ++ [TraceEv.boundDecoder]) := by
  rw [connect, h]
  simp [show ¬(500 ≤ 200) by omega, hmt]

/-- Status 200 with any other content type is fatal. -/
theorem connect_200_bad {es : ESState} {ct body : List Nat} {rest : List Outcome}
    (h : es.err = none) (hmt : ¬parseMediaTypeIsEventStream ct = true) :
    connect es (.resp 200 ct body :: rest)
      = ({ es with err := some (.invalidContentType ct) }, rest,
        connectPre es ++ [TraceEv.closedRespBody]) := by
  rw [connect, h]
  simp only [show ¬(500 ≤ 200) by omega, if_neg, if_false, reduceIte, if_neg hmt,
    connect_err_some (show ESState.err { es with err := some (GoError.invalidContentType ct) }
      = some _ from rfl)]
  simp

/-- Any other status is fatal. -/
theorem connect_other_status {es : ESState} {st : Nat} {ct body : List Nat}
    {rest : List Outcome} (h : es.err = none) (h5 : st < 500) (h204 : st ≠ 204)
    (h200 : st ≠ 200) :
    connect es (.resp st ct body :: rest)
      = ({ es with err := some (.unrecoverableStatus st) }, rest, connectPre es) := by
  rw [connect, h]
  simp only [if_neg (show ¬500 ≤ st by omega), if_neg h204, if_neg h200,
    connect_err_some (show ESState.err { es with err := some (GoError.unrecoverableStatus st) }
      = some _ from rfl)]
  simp

/-! ## Invariants of `connect` -/

/-- Recursion principle following the `connect` loop: to prove a property
of `connect`'s result it suffices to prove it for each classified step,
with the inductive hypothesis available on the recoverable (retrying)
steps. -/
theorem connect_rec (P : ESState → List Outcome → ESState × List Outcome × List TraceEv → Prop)
    (herr : ∀ es outs er, es.err = some er → P es outs (es, outs, []))
    (hnil : ∀ es, es.err = none → P es [] (es, [], []))
    (hcancel : ∀ es er rest, es.err = none → errorsIs er .canceled = true →
      P es (.err er :: rest) ({ es with err := some er }, rest, connectPre es))
    (htrans : ∀ es er rest, es.err = none → errorsIs er .canceled = false →
      P es rest (connect es rest) →
      P es (.err er :: rest)
        ((connect es rest).1, (connect es rest).2.1, connectPre es ++ (connect es rest).2.2))
    (h5xx : ∀ es st ct body rest, es.err = none → 500 ≤ st →
      P es rest (connect es rest) →
      P es (.resp st ct body :: rest)
        ((connect es rest).1, (connect es rest).2.1,
          connectPre es ++ TraceEv.closedRespBody :: (connect es rest).2.2))
    (h204 : ∀ es ct body rest, es.err = none →
      P es (.resp 204 ct body :: rest)
        ({ es with err := some .closed }, rest, connectPre es ++ [TraceEv.closedRespBody]))
    (h200ok : ∀ es ct body rest, es.err = none →
      parseMediaTypeIsEventStream ct = true →
      P es (.resp 200 ct body :: rest)
        ({ es with r := true, dec := some ⟨body, false⟩ }, rest,
          connectPre es ++ [TraceEv.boundDecoder]))
    (h200bad : ∀ es ct body rest, es.err = none →
      ¬parseMediaTypeIsEventStream ct = true →
      P es (.resp 200 ct body :: rest)
        ({ es with err := some (.invalidContentType ct) }, rest,
          connectPre es ++ [TraceEv.closedRespBody]))
    (hother : ∀ es st ct body rest, es.err = none → st < 500 → st ≠ 204 → st ≠ 200 →
      P es (.resp st ct body :: rest)
        ({ es with err := some (.unrecoverableStatus st) }, rest, connectPre es)) :
    ∀ (outs : List Outcome) (es : ESState), P es outs (connect es outs) := by
  intro outs
  induction outs with
  | nil =>
    intro es
    rw [connect_nil]
    rcases hs : es.err with _ | er
    · exact hnil es hs
    · exact herr es [] er hs
  | cons o rest ih =>
    intro es
    rcases hs : es.err with _ | er
    · cases o with
      | err er2 =>
        cases hc : errorsIs er2 GoError.canceled
        · rw [connect_transient hs hc]
          exact htrans es er2 rest hs hc (ih es)
        · rw [connect_cancel hs hc]
          exact hcancel es er2 rest hs hc
      | resp st ct body =>
        by_cases h5 : 500 ≤ st
        · rw [connect_5xx hs h5]
          exact h5xx es st ct body rest hs h5 (ih es)
        · by_cases hst4 : st = 204
          · subst hst4
            rw [connect_204 hs]
            exact h204 es ct body rest hs
          · by_cases hst0 : st = 200
            · subst hst0
              by_cases hmt : parseMediaTypeIsEventStream ct = true
              · rw [connect_200_ok hs hmt]
                exact h200ok es ct body rest hs hmt
              · rw [connect_200_bad hs hmt]
                exact h200bad es ct body rest hs hmt
            · rw [connect_other_status hs (by omega) hst4 hst0]
              exact hother es st ct body rest hs (by omega) hst4 hst0
    · rw [connect_err_some hs]
      exact herr es _ er hs

/-- `connect` never changes the sticky `lastEventID` or `retry`. -/
theorem connect_invariants (outs : List Outcome) (es : ESState) :
    (connect es outs).1.lastEventID = es.lastEventID
      ∧ (connect es outs).1.retry = es.retry := by
  refine connect_rec
    (fun es _ t => t.1.lastEventID = es.lastEventID ∧ t.1.retry = es.retry)
    ?_ ?_ ?_ ?_ ?_ ?_ ?_ ?_ ?_ outs es
  · intro es outs er _
    exact ⟨rfl, rfl⟩
  · intro es _
    exact ⟨rfl, rfl⟩
  · intro es er rest _ _
    exact ⟨rfl, rfl⟩
  · intro es er rest _ _ ih
    exact ih
  · intro es st ct body rest _ _ ih
    exact ih
  · intro es ct body rest _
    exact ⟨rfl, rfl⟩
  · intro es ct body rest _ _
    exact ⟨rfl, rfl⟩
  · intro es ct body rest _ _
    exact ⟨rfl, rfl⟩
  · intro es st ct body rest _ _ _ _
    exact ⟨rfl, rfl⟩

/-- `connect` keeps `es.r` once a connection has ever been bound. -/
theorem connect_r_mono (outs : List Outcome) (es : ESState) (hr : es.r = true) :
    (connect es outs).1.r = true := by
  refine connect_rec (fun es _ t => es.r = true → t.1.r = true)
    ?_ ?_ ?_ ?_ ?_ ?_ ?_ ?_ ?_ outs es hr
  · intro es outs er _ h
    exact h
  · intro es _ h
    exact h
  · intro es er rest _ _ h
    exact h
  · intro es er rest _ _ ih h
    exact ih h
  · intro es st ct body rest _ _ ih h
    exact ih h
  · intro es ct body rest _ h
    exact h
  · intro es ct body rest _ _ _
    rfl
  · intro es ct body rest _ _ h
    exact h
  · intro es st ct body rest _ _ _ _ h
    exact h

/-- Every request issued by `connect` carries the sticky `lastEventID`. -/
theorem connect_sent (outs : List Outcome) (es : ESState) :
    ∀ id, TraceEv.sentRequest id ∈ (connect es outs).2.2 → id = es.lastEventID := by
  have hpre : ∀ (es : ESState) (id : List Nat),
      TraceEv.sentRequest id ∈ connectPre es → id = es.lastEventID := by
    intro es id hm
    rw [connectPre] at hm
    rcases List.mem_append.1 hm with hm | hm
    · split_ifs at hm <;> simp at hm
    · rw [List.mem_singleton] at hm
      cases hm
      rfl
  refine connect_rec (fun es _ t => ∀ id, TraceEv.sentRequest id ∈ t.2.2 → id = es.lastEventID)
    ?_ ?_ ?_ ?_ ?_ ?_ ?_ ?_ ?_ outs es
  · intro es outs er _ id hm
    simp at hm
  · intro es _ id hm
    simp at hm
  · intro es er rest _ _ id hm
    exact hpre es id hm
  · intro es er rest _ _ ih id hm
    rcases List.mem_append.1 hm with hm | hm
    · exact hpre es id hm
    · exact ih id hm
  · intro es st ct body rest _ _ ih id hm
    rcases List.mem_append.1 hm with hm | hm
    · exact hpre es id hm
    · rcases List.mem_cons.1 hm with hm | hm
      · cases hm
      · exact ih id hm
  · intro es ct body rest _ id hm
    rcases List.mem_append.1 hm with hm | hm
    · exact hpre es id hm
    · rcases List.mem_cons.1 hm with hm | hm
      · cases hm
      · simp at hm
  · intro es ct body rest _ _ id hm
    rcases List.mem_append.1 hm with hm | hm
    · exact hpre es id hm
    · rw [List.mem_singleton] at hm
      cases hm
  · intro es ct body rest _ _ id hm
    rcases List.mem_append.1 hm with hm | hm
    · exact hpre es id hm
    · rcases List.mem_cons.1 hm with hm | hm
      · cases hm
      · simp at hm
  · intro es st ct body rest _ _ _ _ id hm
    exact hpre es id hm

/-- The `connect` loop leaves outcomes unconsumed only after recording a
terminal error or binding a fresh connection. -/
theorem connect_exit (outs : List Outcome) (es : ESState) (_h : es.err = none)
    (hrest : (connect es outs).2.1 ≠ []) :
    (connect es outs).1.err ≠ none
      ∨ ((connect es outs).1.r = true ∧ (connect es outs).1.dec ≠ none) := by
  refine connect_rec
    (fun _ _ t => t.2.1 ≠ [] → t.1.err ≠ none ∨ (t.1.r = true ∧ t.1.dec ≠ none))
    ?_ ?_ ?_ ?_ ?_ ?_ ?_ ?_ ?_ outs es hrest
  · intro es outs er herr hne
    exact Or.inl (by simp [herr])
  · intro es _ hne
    exact absurd rfl hne
  · intro es er rest _ _ hne
    exact Or.inl (by simp)
  · intro es er rest _ _ ih hne
    exact ih hne
  · intro es st ct body rest _ _ ih hne
    exact ih hne
  · intro es ct body rest _ hne
    exact Or.inl (by simp)
  · intro es ct body rest _ _ hne
    exact Or.inr ⟨rfl, by simp⟩
  · intro es ct body rest _ _ hne
    exact Or.inl (by simp)
  · intro es st ct body rest _ _ _ _ hne
    exact Or.inl (by simp)

/-- Trace counts of the loop head: with no previously bound connection
there is no wait and no body close. -/
theorem connect_waits_fresh (outs : List Outcome) (es : ESState) (h : es.err = none)
    (hr : es.r = false) :
    (connect es outs).2.2.countP isWaited = 0
      ∧ (connect es outs).2.2.countP isClosedBody = 0 := by
  have hpre : (connectPre es).countP isWaited = 0
      ∧ (connectPre es).countP isClosedBody = 0 := by
    rw [connectPre, hr]
    simp [isWaited, isClosedBody, isSentRequest, List.countP_cons]
  refine connect_rec
    (fun es _ t => es.err = none → es.r = false →
      t.2.2.countP isWaited = 0 ∧ t.2.2.countP isClosedBody = 0)
    ?_ ?_ ?_ ?_ ?_ ?_ ?_ ?_ ?_ outs es h hr
  · intro es outs er herr hn hr
    simp
  · intro es _ _ _
    simp
  · intro es er rest _ _ _ hrf
    rw [connectPre, hrf]
    simp [isWaited, isClosedBody, List.countP_cons]
  · intro es er rest hn _ ih _ hrf
    rw [List.countP_append, List.countP_append, (ih hn hrf).1, (ih hn hrf).2,
      connectPre, hrf]
    simp [isWaited, isClosedBody, List.countP_cons]
  · intro es st ct body rest hn _ ih _ hrf
    rw [List.countP_append, List.countP_append, List.countP_cons, List.countP_cons,
      (ih hn hrf).1, (ih hn hrf).2, connectPre, hrf]
    simp [isWaited, isClosedBody, List.countP_cons]
  · intro es ct body rest _ _ hrf
    rw [List.countP_append, List.countP_append, connectPre, hrf]
    simp [isWaited, isClosedBody, List.countP_cons]
  · intro es ct body rest _ _ _ hrf
    rw [List.countP_append, List.countP_append, connectPre, hrf]
    simp [isWaited, isClosedBody, List.countP_cons]
  · intro es ct body rest _ _ _ hrf
    rw [List.countP_append, List.countP_append, connectPre, hrf]
    simp [isWaited, isClosedBody, List.countP_cons]
  · intro es st ct body rest _ _ _ _ _ hrf
    rw [connectPre, hrf]
    simp [isWaited, isClosedBody, List.countP_cons]

/-- Trace counts with a previously bound connection: every issued request
is preceded by one body close and one wait of the current retry interval. -/
theorem connect_waits_connected (outs : List Outcome) (es : ESState) (h : es.err = none)
    (hr : es.r = true) :
    (connect es outs).2.2.countP isWaited = (connect es outs).2.2.countP isSentRequest
      ∧ (connect es outs).2.2.countP isClosedBody
        = (connect es outs).2.2.countP isSentRequest
      ∧ (∀ d, TraceEv.waited d ∈ (connect es outs).2.2 → d = es.retry) := by
  have hpre : ∀ (es : ESState), es.r = true →
      connectPre es = [TraceEv.closedBody, TraceEv.waited es.retry,
        TraceEv.sentRequest es.lastEventID] := by
    intro es hrt
    rw [connectPre, hrt]
    rfl
  refine connect_rec
    (fun es _ t => es.err = none → es.r = true →
      t.2.2.countP isWaited = t.2.2.countP isSentRequest
        ∧ t.2.2.countP isClosedBody = t.2.2.countP isSentRequest
        ∧ (∀ d, TraceEv.waited d ∈ t.2.2 → d = es.retry))
    ?_ ?_ ?_ ?_ ?_ ?_ ?_ ?_ ?_ outs es h hr
  · intro es outs er herr _ _
    refine ⟨rfl, rfl, ?_⟩
    intro d hm
    simp at hm
  · intro es _ _ _
    refine ⟨rfl, rfl, ?_⟩
    intro d hm
    simp at hm
  · intro es er rest _ _ _ hrt
    rw [hpre es hrt]
    refine ⟨by simp [isWaited, isClosedBody, isSentRequest, List.countP_cons],
      by simp [isWaited, isClosedBody, isSentRequest, List.countP_cons], ?_⟩
    intro d hm
    simp at hm
    exact hm
  · intro es er rest hn _ ih _ hrt
    obtain ⟨ih1, ih2, ih3⟩ := ih hn hrt
    rw [hpre es hrt]
    refine ⟨?_, ?_, ?_⟩
    · simp [List.countP_append, List.countP_cons, isWaited, isClosedBody, isSentRequest,
        ih1]
    · simp [List.countP_append, List.countP_cons, isWaited, isClosedBody, isSentRequest,
        ih2]
    · intro d hm
      simp at hm
      rcases hm with hm | hm
      · exact hm
      · exact ih3 d hm
  · intro es st ct body rest hn _ ih _ hrt
    obtain ⟨ih1, ih2, ih3⟩ := ih hn hrt
    rw [hpre es hrt]
    refine ⟨?_, ?_, ?_⟩
    · simp [List.countP_append, List.countP_cons, isWaited, isClosedBody, isSentRequest,
        ih1]
    · simp [List.countP_append, List.countP_cons, isWaited, isClosedBody, isSentRequest,
        ih2]
    · intro d hm
      simp at hm
      rcases hm with hm | hm
      · exact hm
      · exact ih3 d hm
  · intro es ct body rest _ _ hrt
    rw [hpre es hrt]
    refine ⟨by simp [isWaited, isClosedBody, isSentRequest, List.countP_append,
        List.countP_cons],
      by simp [isWaited, isClosedBody, isSentRequest, List.countP_append,
        List.countP_cons], ?_⟩
    intro d hm
    simp at hm
    exact hm
  · intro es ct body rest _ _ _ hrt
    rw [hpre es hrt]
    refine ⟨by simp [isWaited, isClosedBody, isSentRequest, List.countP_append,
        List.countP_cons],
      by simp [isWaited, isClosedBody, isSentRequest, List.countP_append,
        List.countP_cons], ?_⟩
    intro d hm
    simp at hm
    exact hm
  · intro es ct body rest _ _ _ hrt
    rw [hpre es hrt]
    refine ⟨by simp [isWaited, isClosedBody, isSentRequest, List.countP_append,
        List.countP_cons],
      by simp [isWaited, isClosedBody, isSentRequest, List.countP_append,
        List.countP_cons], ?_⟩
    intro d hm
    simp at hm
    exact hm
  · intro es st ct body rest _ _ _ _ _ hrt
    rw [hpre es hrt]
    refine ⟨by simp [isWaited, isClosedBody, isSentRequest, List.countP_cons],
      by simp [isWaited, isClosedBody, isSentRequest, List.countP_cons], ?_⟩
    intro d hm
    simp at hm
    exact hm

/-! ## Step equations of `readLoop` -/

theorem readLoop_err {fuel : Nat} {es : ESState} {outs : List Outcome} {er : GoError}
    (h : es.err = some er) :
    readLoop fuel es outs = (.err zeroEvent er, es, outs, []) := by
  cases fuel with
  | zero => rw [readLoop, h]
  | succ n => rw [readLoop, h]

theorem readLoop_zero {es : ESState} {outs : List Outcome} (h : es.err = none) :
    readLoop 0 es outs = (.stuck, es, outs, []) := by
  rw [readLoop, h]

theorem readLoop_no_dec {fuel : Nat} {es : ESState} {outs : List Outcome}
    (h : es.err = none) (hd : es.dec = none) :
    readLoop (fuel + 1) es outs = (.stuck, es, outs, []) := by
  rw [readLoop, h, hd]

theorem readLoop_invalid {fuel : Nat} {es : ESState} {outs : List Outcome} {s : DecState}
    {er : GoError} {s' : DecState}
    (h : es.err = none) (hd : es.dec = some s)
    (hdec : Decode s zeroEvent = (.error er, s'))
    (hie : errorsIs er .invalidEncoding = true) :
    readLoop (fuel + 1) es outs
      = ((readLoop fuel { es with dec := some s' } outs).1,
        (readLoop fuel { es with dec := some s' } outs).2.1,
        (readLoop fuel { es with dec := some s' } outs).2.2.1,
        TraceEv.decoded :: (readLoop fuel { es with dec := some s' } outs).2.2.2) := by
  rw [readLoop, h, hd]
  simp only [hdec, hie, if_true]

theorem readLoop_decode_err {fuel : Nat} {es : ESState} {outs : List Outcome} {s : DecState}
    {er : GoError} {s' : DecState}
    (h : es.err = none) (hd : es.dec = some s)
    (hdec : Decode s zeroEvent = (.error er, s'))
    (hie : errorsIs er .invalidEncoding = false) :
    readLoop (fuel + 1) es outs
      = ((readLoop fuel (connect { es with dec := some s' } outs).1
            (connect { es with dec := some s' } outs).2.1).1,
        (readLoop fuel (connect { es with dec := some s' } outs).1
            (connect { es with dec := some s' } outs).2.1).2.1,
        (readLoop fuel (connect { es with dec := some s' } outs).1
            (connect { es with dec := some s' } outs).2.1).2.2.1,
        TraceEv.decoded :: ((connect { es with dec := some s' } outs).2.2
          ++ (readLoop fuel (connect { es with dec := some s' } outs).1
            (connect { es with dec := some s' } outs).2.1).2.2.2)) := by
  rw [readLoop, h, hd]
  simp only [hdec, hie, if_false, Bool.false_eq_true]

theorem readLoop_empty {fuel : Nat} {es : ESState} {outs : List Outcome} {s : DecState}
    {e : Event} {s' : DecState}
    (h : es.err = none) (hd : es.dec = some s)
    (hdec : Decode s zeroEvent = (.ok e, s')) (he : e.Data = []) :
    readLoop (fuel + 1) es outs
      = ((readLoop fuel { es with dec := some s' } outs).1,
        (readLoop fuel { es with dec := some s' } outs).2.1,
        (readLoop fuel { es with dec := some s' } outs).2.2.1,
        TraceEv.decoded :: (readLoop fuel { es with dec := some s' } outs).2.2.2) := by
  rw [readLoop, h, hd]
  simp only [hdec, he, if_true]

theorem readLoop_deliver {fuel : Nat} {es : ESState} {outs : List Outcome} {s : DecState}
    {e : Event} {s' : DecState}
    (h : es.err = none) (hd : es.dec = some s)
    (hdec : Decode s zeroEvent = (.ok e, s')) (he : e.Data ≠ []) :
    readLoop (fuel + 1) es outs
      = (.ok e, applyEventState { es with dec := some s' } e, outs, [TraceEv.decoded]) := by
  rw [readLoop, h, hd]
  simp only [hdec, if_neg he]

/-- Recursion principle following the `Read` decode loop. -/
theorem readLoop_rec
    (P : Nat → ESState → List Outcome → ReadRes × ESState × List Outcome × List TraceEv → Prop)
    (herr : ∀ fuel es outs er, es.err = some er →
      P fuel es outs (.err zeroEvent er, es, outs, []))
    (hstuck : ∀ es outs, es.err = none → P 0 es outs (.stuck, es, outs, []))
    (hnodec : ∀ fuel es outs, es.err = none → es.dec = none →
      P (fuel + 1) es outs (.stuck, es, outs, []))
    (hinvalid : ∀ fuel es outs s er s', es.err = none → es.dec = some s →
      Decode s zeroEvent = (.error er, s') → errorsIs er .invalidEncoding = true →
      P fuel { es with dec := some s' } outs (readLoop fuel { es with dec := some s' } outs) →
      P (fuel + 1) es outs
        ((readLoop fuel { es with dec := some s' } outs).1,
          (readLoop fuel { es with dec := some s' } outs).2.1,
          (readLoop fuel { es with dec := some s' } outs).2.2.1,
          TraceEv.decoded :: (readLoop fuel { es with dec := some s' } outs).2.2.2))
    (herrdec : ∀ fuel es outs s er s', es.err = none → es.dec = some s →
      Decode s zeroEvent = (.error er, s') → errorsIs er .invalidEncoding = false →
      P fuel (connect { es with dec := some s' } outs).1
        (connect { es with dec := some s' } outs).2.1
        (readLoop fuel (connect { es with dec := some s' } outs).1
          (connect { es with dec := some s' } outs).2.1) →
      P (fuel + 1) es outs
        ((readLoop fuel (connect { es with dec := some s' } outs).1
            (connect { es with dec := some s' } outs).2.1).1,
          (readLoop fuel (connect { es with dec := some s' } outs).1
            (connect { es with dec := some s' } outs).2.1).2.1,
          (readLoop fuel (connect { es with dec := some s' } outs).1
            (connect { es with dec := some s' } outs).2.1).2.2.1,
          TraceEv.decoded :: ((connect { es with dec := some s' } outs).2.2
            ++ (readLoop fuel (connect { es with dec := some s' } outs).1
              (connect { es with dec := some s' } outs).2.1).2.2.2)))
    (hempty : ∀ fuel es outs s e s', es.err = none → es.dec = some s →
      Decode s zeroEvent = (.ok e, s') → e.Data = [] →
      P fuel { es with dec := some s' } outs (readLoop fuel { es with dec := some s' } outs) →
      P (fuel + 1) es outs
        ((readLoop fuel { es with dec := some s' } outs).1,
          (readLoop fuel { es with dec := some s' } outs).2.1,
          (readLoop fuel { es with dec := some s' } outs).2.2.1,
          TraceEv.decoded :: (readLoop fuel { es with dec := some s' } outs).2.2.2))
    (hdeliver : ∀ fuel es outs s e s', es.err = none → es.dec = some s →
      Decode s zeroEvent = (.ok e, s') → e.Data ≠ [] →
      P (fuel + 1) es outs
        (.ok e, applyEventState { es with dec := some s' } e, outs, [TraceEv.decoded])) :
    ∀ (fuel : Nat) (es : ESState) (outs : List Outcome),
      P fuel es outs (readLoop fuel es outs) := by
  intro fuel
  induction fuel with
  | zero =>
    intro es outs
    rcases hs : es.err with _ | er
    · rw [readLoop_zero hs]
      exact hstuck es outs hs
    · rw [readLoop_err hs]
      exact herr 0 es outs er hs
  | succ n ih =>
    intro es outs
    rcases hs : es.err with _ | er
    · rcases hd : es.dec with _ | s
      · rw [readLoop_no_dec hs hd]
        exact hnodec n es outs hs hd
      · rcases hdec : Decode s zeroEvent with ⟨res, s'⟩
        cases res with
        | error er =>
          cases hie : errorsIs er GoError.invalidEncoding
          · rw [readLoop_decode_err hs hd hdec hie]
            exact herrdec n es outs s er s' hs hd hdec hie (ih _ _)
          · rw [readLoop_invalid hs hd hdec hie]
            exact hinvalid n es outs s er s' hs hd hdec hie (ih _ _)
        | ok e =>
          by_cases he : e.Data = []
          · rw [readLoop_empty hs hd hdec he]
            exact hempty n es outs s e s' hs hd hdec he (ih _ _)
          · rw [readLoop_deliver hs hd hdec he]
            exact hdeliver n es outs s e s' hs hd hdec he
    · rw [readLoop_err hs]
      exact herr (n + 1) es outs er hs

/-! ## Sticky-state properties of the decode loop -/

theorem applyEventState_lastEventID (es : ESState) (e : Event) :
    (applyEventState es e).lastEventID
      = if e.ID ≠ [] ∨ e.ResetID then e.ID else es.lastEventID := by
  rw [applyEventState]
  rcases hA : atoi e.Retry with _ | n <;>
    by_cases h2 : e.Retry ≠ [] <;>
      by_cases h1 : e.ID ≠ [] ∨ e.ResetID = true <;>
        simp [hA, h2, h1]

theorem applyEventState_retry (es : ESState) (e : Event) :
    (applyEventState es e).retry
      = if e.Retry ≠ [] then
          (match atoi e.Retry with
            | some n => wrap64 (n * 1000000)
            | none => es.retry)
        else es.retry := by
  rw [applyEventState]
  rcases hA : atoi e.Retry with _ | n <;>
    by_cases h2 : e.Retry ≠ [] <;>
      by_cases h1 : e.ID ≠ [] ∨ e.ResetID = true <;>
        simp [hA, h2, h1]

/-- `Read`'s loop never hands an event with empty `Data` to the caller. -/
theorem readLoop_ok_data (fuel : Nat) (es : ESState) (outs : List Outcome) :
    ∀ e, (readLoop fuel es outs).1 = .ok e → e.Data ≠ [] := by
  refine readLoop_rec (fun _ _ _ t => ∀ e, t.1 = .ok e → e.Data ≠ [])
    ?_ ?_ ?_ ?_ ?_ ?_ ?_ fuel es outs
  · intro _ _ _ _ _ e h
    cases h
  · intro _ _ _ e h
    cases h
  · intro _ _ _ _ _ e h
    cases h
  · intro _ _ _ _ _ _ _ _ _ _ ih e h
    exact ih e h
  · intro _ _ _ _ _ _ _ _ _ _ ih e h
    exact ih e h
  · intro _ _ _ _ _ _ _ _ _ _ ih e h
    exact ih e h
  · intro _ _ _ _ e₀ _ _ _ _ he e h
    injection h with h
    exact h ▸ he

/-- How the loop's final `lastEventID` relates to the entry state: changed
(to the event's `ID`) only on delivery of an event with non-empty `ID` or
`ResetID` set. -/
theorem readLoop_lastEventID (fuel : Nat) (es : ESState) (outs : List Outcome) :
    (∀ e, (readLoop fuel es outs).1 = .ok e →
      (readLoop fuel es outs).2.1.lastEventID
        = if e.ID ≠ [] ∨ e.ResetID then e.ID else es.lastEventID)
      ∧ ((readLoop fuel es outs).1 = .stuck →
        (readLoop fuel es outs).2.1.lastEventID = es.lastEventID)
      ∧ (∀ e0 er, (readLoop fuel es outs).1 = .err e0 er →
        (readLoop fuel es outs).2.1.lastEventID = es.lastEventID) := by
  refine readLoop_rec
    (fun _ es _ t =>
      (∀ e, t.1 = .ok e → t.2.1.lastEventID
        = if e.ID ≠ [] ∨ e.ResetID then e.ID else es.lastEventID)
        ∧ (t.1 = .stuck → t.2.1.lastEventID = es.lastEventID)
        ∧ (∀ e0 er, t.1 = .err e0 er → t.2.1.lastEventID = es.lastEventID))
    ?_ ?_ ?_ ?_ ?_ ?_ ?_ fuel es outs
  · intro _ _ _ _ _
    refine ⟨fun e h => ?_, fun h => ?_, fun e0 er2 h => ?_⟩
    · cases h
    · cases h
    · rfl
  · intro _ _ _
    refine ⟨fun e h => ?_, fun h => ?_, fun e0 er2 h => ?_⟩
    · cases h
    · rfl
    · cases h
  · intro _ _ _ _ _
    refine ⟨fun e h => ?_, fun h => ?_, fun e0 er2 h => ?_⟩
    · cases h
    · rfl
    · cases h
  · intro _ _ _ _ _ _ _ _ _ _ ih
    exact ih
  · intro fuel es outs s er s' _ _ _ _ ih
    obtain ⟨ih1, ih2, ih3⟩ := ih
    refine ⟨fun e h => ?_, fun h => ?_, fun e0 er2 h => ?_⟩
    · have h1 := ih1 e h
      rw [(connect_invariants outs { es with dec := some s' }).1] at h1
      exact h1
    · have h1 := ih2 h
      rw [(connect_invariants outs { es with dec := some s' }).1] at h1
      exact h1
    · have h1 := ih3 e0 er2 h
      rw [(connect_invariants outs { es with dec := some s' }).1] at h1
      exact h1
  · intro _ _ _ _ _ _ _ _ _ _ ih
    exact ih
  · intro fuel es outs s e₀ s' _ _ _ _
    refine ⟨fun e h => ?_, fun h => ?_, fun e0 er2 h => ?_⟩
    · injection h with h
      subst h
      exact applyEventState_lastEventID _ _
    · cases h
    · cases h

/-- How the loop's final `retry` relates to the entry state: changed only
on delivery of an event whose `Retry` parses via `strconv.Atoi`. -/
theorem readLoop_retry (fuel : Nat) (es : ESState) (outs : List Outcome) :
    (∀ e, (readLoop fuel es outs).1 = .ok e →
      (readLoop fuel es outs).2.1.retry
        = if e.Retry ≠ [] then
            (match atoi e.Retry with
              | some n => wrap64 (n * 1000000)
              | none => es.retry)
          else es.retry)
      ∧ ((readLoop fuel es outs).1 = .stuck →
        (readLoop fuel es outs).2.1.retry = es.retry)
      ∧ (∀ e0 er, (readLoop fuel es outs).1 = .err e0 er →
        (readLoop fuel es outs).2.1.retry = es.retry) := by
  refine readLoop_rec
    (fun _ es _ t =>
      (∀ e, t.1 = .ok e → t.2.1.retry
        = if e.Retry ≠ [] then
            (match atoi e.Retry with
              | some n => wrap64 (n * 1000000)
              | none => es.retry)
          else es.retry)
        ∧ (t.1 = .stuck → t.2.1.retry = es.retry)
        ∧ (∀ e0 er, t.1 = .err e0 er → t.2.1.retry = es.retry))
    ?_ ?_ ?_ ?_ ?_ ?_ ?_ fuel es outs
  · intro _ _ _ _ _
    refine ⟨fun e h => ?_, fun h => ?_, fun e0 er2 h => ?_⟩
    · cases h
    · cases h
    · rfl
  · intro _ _ _
    refine ⟨fun e h => ?_, fun h => ?_, fun e0 er2 h => ?_⟩
    · cases h
    · rfl
    · cases h
  · intro _ _ _ _ _
    refine ⟨fun e h => ?_, fun h => ?_, fun e0 er2 h => ?_⟩
    · cases h
    · rfl
    · cases h
  · intro _ _ _ _ _ _ _ _ _ _ ih
    exact ih
  · intro fuel es outs s er s' _ _ _ _ ih
    obtain ⟨ih1, ih2, ih3⟩ := ih
    refine ⟨fun e h => ?_, fun h => ?_, fun e0 er2 h => ?_⟩
    · have h1 := ih1 e h
      rw [(connect_invariants outs { es with dec := some s' }).2] at h1
      exact h1
    · have h1 := ih2 h
      rw [(connect_invariants outs { es with dec := some s' }).2] at h1
      exact h1
    · have h1 := ih3 e0 er2 h
      rw [(connect_invariants outs { es with dec := some s' }).2] at h1
      exact h1
  · intro _ _ _ _ _ _ _ _ _ _ ih
    exact ih
  · intro fuel es outs s e₀ s' _ _ _ _
    refine ⟨fun e h => ?_, fun h => ?_, fun e0 er2 h => ?_⟩
    · injection h with h
      subst h
      exact applyEventState_retry _ _
    · cases h
    · cases h

/-- Every request issued during the loop carries the entry `lastEventID`. -/
theorem readLoop_sent (fuel : Nat) (es : ESState) (outs : List Outcome) :
    ∀ id, TraceEv.sentRequest id ∈ (readLoop fuel es outs).2.2.2 →
      id = es.lastEventID := by
  refine readLoop_rec
    (fun _ es _ t => ∀ id, TraceEv.sentRequest id ∈ t.2.2.2 → id = es.lastEventID)
    ?_ ?_ ?_ ?_ ?_ ?_ ?_ fuel es outs
  · intro _ _ _ _ _ id hm
    simp at hm
  · intro _ _ _ id hm
    simp at hm
  · intro _ _ _ _ _ id hm
    simp at hm
  · intro _ _ _ _ _ _ _ _ _ _ ih id hm
    rcases List.mem_cons.1 hm with hm | hm
    · cases hm
    · exact ih id hm
  · intro fuel es outs s er s' _ _ _ _ ih id hm
    rcases List.mem_cons.1 hm with hm | hm
    · cases hm
    · rcases List.mem_append.1 hm with hm | hm
      · exact connect_sent outs { es with dec := some s' } id hm
      · have h1 := ih id hm
        rw [(connect_invariants outs { es with dec := some s' }).1] at h1
        exact h1
  · intro _ _ _ _ _ _ _ _ _ _ ih id hm
    rcases List.mem_cons.1 hm with hm | hm
    · cases hm
    · exact ih id hm
  · intro _ _ _ _ _ _ _ _ _ _ id hm
    rcases List.mem_cons.1 hm with hm | hm
    · cases hm
    · simp at hm

/-! ## `Read`-level wrappers -/

/-- C3 core: with a terminal error recorded, `Read` returns the zero event
and that same error, changes nothing, makes no connection attempt and no
decode. -/
theorem Read_terminal {fuel : Nat} {es : ESState} {outs : List Outcome} {er : GoError}
    (h : es.err = some er) :
    Read fuel es outs = (.err zeroEvent er, es, outs, []) := by
  rw [Read]
  by_cases hr : es.r = true
  · rw [if_pos hr, readLoop_err h]
  · rw [if_neg hr, connect_err_some h]
    show ((readLoop fuel es outs).1, (readLoop fuel es outs).2.1,
      (readLoop fuel es outs).2.2.1, [] ++ (readLoop fuel es outs).2.2.2)
      = (ReadRes.err zeroEvent er, es, outs, [])
    rw [readLoop_err h]
    rfl

theorem Read_ok_data {fuel : Nat} {es : ESState} {outs : List Outcome} {e : Event}
    (h : (Read fuel es outs).1 = .ok e) : e.Data ≠ [] := by
  rw [Read] at h
  by_cases hr : es.r = true
  · rw [if_pos hr] at h
    exact readLoop_ok_data fuel es outs e h
  · rw [if_neg hr] at h
    exact readLoop_ok_data fuel (connect es outs).1 (connect es outs).2.1 e h

theorem Read_lastEventID (fuel : Nat) (es : ESState) (outs : List Outcome) :
    (∀ e, (Read fuel es outs).1 = .ok e →
      (Read fuel es outs).2.1.lastEventID
        = if e.ID ≠ [] ∨ e.ResetID then e.ID else es.lastEventID)
      ∧ ((Read fuel es outs).1 = .stuck →
        (Read fuel es outs).2.1.lastEventID = es.lastEventID)
      ∧ (∀ e0 er, (Read fuel es outs).1 = .err e0 er →
        (Read fuel es outs).2.1.lastEventID = es.lastEventID) := by
  rw [Read]
  by_cases hr : es.r = true
  · rw [if_pos hr]
    exact readLoop_lastEventID fuel es outs
  · rw [if_neg hr]
    have h := readLoop_lastEventID fuel (connect es outs).1 (connect es outs).2.1
    rw [(connect_invariants outs es).1] at h
    exact h

theorem Read_retry (fuel : Nat) (es : ESState) (outs : List Outcome) :
    (∀ e, (Read fuel es outs).1 = .ok e →
      (Read fuel es outs).2.1.retry
        = if e.Retry ≠ [] then
            (match atoi e.Retry with
              | some n => wrap64 (n * 1000000)
              | none => es.retry)
          else es.retry)
      ∧ ((Read fuel es outs).1 = .stuck → (Read fuel es outs).2.1.retry = es.retry)
      ∧ (∀ e0 er, (Read fuel es outs).1 = .err e0 er →
        (Read fuel es outs).2.1.retry = es.retry) := by
  rw [Read]
  by_cases hr : es.r = true
  · rw [if_pos hr]
    exact readLoop_retry fuel es outs
  · rw [if_neg hr]
    have h := readLoop_retry fuel (connect es outs).1 (connect es outs).2.1
    rw [(connect_invariants outs es).2] at h
    exact h

theorem Read_sent (fuel : Nat) (es : ESState) (outs : List Outcome) :
    ∀ id, TraceEv.sentRequest id ∈ (Read fuel es outs).2.2.2 → id = es.lastEventID := by
  rw [Read]
  by_cases hr : es.r = true
  · rw [if_pos hr]
    exact readLoop_sent fuel es outs
  · rw [if_neg hr]
    intro id hm
    rcases List.mem_append.1 hm with hm | hm
    · exact connect_sent outs es id hm
    · have h1 := readLoop_sent fuel (connect es outs).1 (connect es outs).2.1 id hm
      rw [(connect_invariants outs es).1] at h1
      exact h1

/-- With a previously bound connection, each attempt's trace begins with
the body close, the retry wait, and the request. -/
theorem connect_step_waits {es : ESState} {o : Outcome} {rest : List Outcome}
    (h : es.err = none) (hr : es.r = true) :
    ∃ tr', (connect es (o :: rest)).2.2
      = TraceEv.closedBody :: TraceEv.waited es.retry
        :: TraceEv.sentRequest es.lastEventID :: tr' := by
  have hpre : connectPre es = [TraceEv.closedBody, TraceEv.waited es.retry,
      TraceEv.sentRequest es.lastEventID] := by
    rw [connectPre, hr]
    rfl
  cases o with
  | err er =>
    cases hc : errorsIs er GoError.canceled
    · rw [connect_transient h hc, hpre]
      exact ⟨_, rfl⟩
    · rw [connect_cancel h hc, hpre]
      exact ⟨[], rfl⟩
  | resp st ct body =>
    by_cases h5 : 500 ≤ st
    · rw [connect_5xx h h5, hpre]
      exact ⟨_, rfl⟩
    · by_cases hst4 : st = 204
      · subst hst4
        rw [connect_204 h, hpre]
        exact ⟨_, rfl⟩
      · by_cases hst0 : st = 200
        · subst hst0
          by_cases hmt : parseMediaTypeIsEventStream ct = true
          · rw [connect_200_ok h hmt, hpre]
            exact ⟨_, rfl⟩
          · rw [connect_200_bad h hmt, hpre]
            exact ⟨_, rfl⟩
        · rw [connect_other_status h (by omega) hst4 hst0, hpre]
          exact ⟨_, rfl⟩

/-! ## Claim theorems -/

/-- C1 (counterexample): the round-trip claim as stated is false.  The
event with empty `Type'`, empty `ID`, `ResetID` unset and data `"d"`
satisfies the claim's hypotheses (`Data` non-empty, not both `ResetID` and
a non-empty `ID`), yet decoding its encoding yields `Type' = "message"`
(the decoder's default), not the original event. -/
theorem claim_C1_counterexample :
    Encode ⟨[], [], [], [100], false⟩ = .ok (ascii "data: d\n\n")
      ∧ Decode ⟨ascii "data: d\n\n", false⟩ zeroEvent
          = (.ok ⟨ascii "message", [], [], [100], false⟩, ⟨[], true⟩)
      ∧ (⟨ascii "message", [], [], [100], false⟩ : Event) ≠ ⟨[], [], [], [100], false⟩ :=
  ⟨by decide, by decide, by decide⟩

/-- C1 (amended): for every event with non-empty `Data`, not both
`ResetID` and a non-empty `ID`, a non-empty `Type'`, whose `ID`, `Retry`
and `Type'` are valid UTF-8, contain no newline and do not end in `\r`,
and whose `Data` is valid UTF-8 with no newline-segment ending in `\r`,
encoding with `Encode` and decoding the bytes with `Decode` from a zero
event reproduces the event exactly (same `Type'`, `ID`, `Retry`, `Data`,
`ResetID`) and consumes the whole stream. -/
theorem claim_C1 (E : Event)
    (hD : E.Data ≠ [])
    (hRI : ¬(E.ResetID = true ∧ E.ID ≠ []))
    (hT : E.Type' ≠ [])
    (hIu : validUtf8 E.ID = true) (hI10 : (10 : Nat) ∉ E.ID) (hIcr : E.ID.getLast? ≠ some 13)
    (hRu : validUtf8 E.Retry = true) (hR10 : (10 : Nat) ∉ E.Retry)
    (hRcr : E.Retry.getLast? ≠ some 13)
    (hTu : validUtf8 E.Type' = true) (hT10 : (10 : Nat) ∉ E.Type')
    (hTcr : E.Type'.getLast? ≠ some 13)
    (hDu : validUtf8 E.Data = true)
    (hseg : ∀ seg ∈ splitNL E.Data, seg.getLast? ≠ some 13 ∧ validUtf8 seg = true) :
    ∃ B, Encode E = .ok B ∧ Decode ⟨B, false⟩ zeroEvent = (.ok E, ⟨[], true⟩) :=
  encode_decode E hD hRI hT hIu hI10 hIcr hRu hR10 hRcr hTu hT10 hTcr hDu hseg

/-- C1 (witness): the amended round trip at a concrete event with all
fields set and multi-line data. -/
theorem claim_C1_witness :
    ∃ B, Encode ⟨ascii "custom", ascii "1", ascii "10", ascii "a\nb", false⟩ = .ok B
      ∧ Decode ⟨B, false⟩ zeroEvent
          = (.ok ⟨ascii "custom", ascii "1", ascii "10", ascii "a\nb", false⟩, ⟨[], true⟩) :=
  claim_C1 _ (by decide) (by decide) (by decide) (by decide) (by decide) (by decide)
    (by decide) (by decide) (by decide) (by decide) (by decide) (by decide) (by decide)
    (by decide)

/-- C2: every connection attempt is classified exactly as the claim's
table states — canceled transport errors are fatal (error recorded, no
further outcome consumed), other transport errors retry, `≥ 500` closes
the body and retries, `204` is fatal with `ErrClosed`, `200` with media
type `text/event-stream` binds a fresh decoder and returns, `200` with
any other content type is fatal, any other status is fatal — and the loop
stops early only with an error recorded or a connection bound. -/
theorem claim_C2 :
    (∀ es er rest, es.err = none → errorsIs er .canceled = true →
      connect es (.err er :: rest) = ({ es with err := some er }, rest, connectPre es))
      ∧ (∀ es er rest, es.err = none → errorsIs er .canceled = false →
        connect es (.err er :: rest)
          = ((connect es rest).1, (connect es rest).2.1,
            connectPre es ++ (connect es rest).2.2))
      ∧ (∀ es st ct body rest, es.err = none → 500 ≤ st →
        connect es (.resp st ct body :: rest)
          = ((connect es rest).1, (connect es rest).2.1,
            connectPre es ++ TraceEv.closedRespBody :: (connect es rest).2.2))
      ∧ (∀ es ct body rest, es.err = none →
        connect es (.resp 204 ct body :: rest)
          = ({ es with err := some .closed }, rest,
            connectPre es ++ [TraceEv.closedRespBody]))
      ∧ (∀ es ct body rest, es.err = none →
        parseMediaTypeIsEventStream ct = true →
        connect es (.resp 200 ct body :: rest)
          = ({ es with r := true, dec := some ⟨body, false⟩ }, rest,
            connectPre es ++ [TraceEv.boundDecoder]))
      ∧ (∀ es ct body rest, es.err = none →
        ¬parseMediaTypeIsEventStream ct = true →
        connect es (.resp 200 ct body :: rest)
          = ({ es with err := some (.invalidContentType ct) }, rest,
            connectPre es ++ [TraceEv.closedRespBody]))
      ∧ (∀ es st ct body rest, es.err = none → st < 500 → st ≠ 204 → st ≠ 200 →
        connect es (.resp st ct body :: rest)
          = ({ es with err := some (.unrecoverableStatus st) }, rest, connectPre es))
      ∧ (∀ outs es, es.err = none → (connect es outs).2.1 ≠ [] →
        (connect es outs).1.err ≠ none
          ∨ ((connect es outs).1.r = true ∧ (connect es outs).1.dec ≠ none)) :=
  ⟨fun _ _ _ => connect_cancel,
    fun _ _ _ => connect_transient,
    fun _ _ _ _ _ => connect_5xx,
    fun _ _ _ _ => connect_204,
    fun _ _ _ _ => connect_200_ok,
    fun _ _ _ _ => connect_200_bad,
    fun _ _ _ _ _ => connect_other_status,
    connect_exit⟩

/-- C2 (witness): the classification at concrete attempts — a canceled
transport error, a 204 response, and a successful 200 response. -/
theorem claim_C2_witness :
    connect ⟨none, false, none, [], 7⟩ [.err .canceled]
        = (⟨some .canceled, false, none, [], 7⟩, [], [TraceEv.sentRequest []])
      ∧ connect ⟨none, false, none, [], 7⟩ [.resp 204 [] []]
        = (⟨some .closed, false, none, [], 7⟩, [],
          [TraceEv.sentRequest [], TraceEv.closedRespBody])
      ∧ connect ⟨none, false, none, [], 7⟩ [.resp 200 (ascii "text/event-stream") [72]]
        = (⟨none, true, some ⟨[72], false⟩, [], 7⟩, [],
          [TraceEv.sentRequest [], TraceEv.boundDecoder]) := by
  refine ⟨?_, ?_, ?_⟩
  · rw [claim_C2.1 ⟨none, false, none, [], 7⟩ .canceled [] rfl (by decide)]
    decide
  · rw [claim_C2.2.2.2.1 ⟨none, false, none, [], 7⟩ [] [] [] rfl]
    decide
  · rw [claim_C2.2.2.2.2.1 ⟨none, false, none, [], 7⟩ (ascii "text/event-stream") [72] []
      rfl (by decide)]
    decide

/-- C3: once a terminal error is recorded (by `Close` or a fatal
connection outcome), `Read` returns the zero event together with that
same error, leaves the state untouched, consumes no transport outcome and
produces no trace — so no further connection attempts or decodes are ever
made, and every subsequent `Read` behaves identically. -/
theorem claim_C3 :
    (∀ fuel es outs er, es.err = some er →
      Read fuel es outs = (.err zeroEvent er, es, outs, []))
      ∧ (∀ es, (Close es).err = some .closed) :=
  ⟨fun _ _ _ _ h => Read_terminal h, fun _ => rfl⟩

/-- C3 (witness): a closed client ignores a perfectly good pending
response and keeps returning `ErrClosed`. -/
theorem claim_C3_witness :
    Read 5 ⟨some .closed, true, none, [], 9⟩ [.resp 200 (ascii "text/event-stream") []]
      = (.err zeroEvent .closed, ⟨some .closed, true, none, [], 9⟩,
        [.resp 200 (ascii "text/event-stream") []], []) :=
  claim_C3.1 5 ⟨some .closed, true, none, [], 9⟩ _ _ rfl

/-- C4: the sticky `lastEventID` changes only when `Read` delivers an
event (non-empty `Data`) with a non-empty `ID` or `ResetID` set, in which
case it becomes that event's `ID`; `connect` never changes it, and every
request issued (by `connect` directly or during `Read`) carries the
current sticky value in its `Last-Event-Id` header, possibly empty. -/
theorem claim_C4 :
    (∀ outs es, (connect es outs).1.lastEventID = es.lastEventID)
      ∧ (∀ outs es id, TraceEv.sentRequest id ∈ (connect es outs).2.2 →
        id = es.lastEventID)
      ∧ (∀ fuel es outs e, (Read fuel es outs).1 = .ok e →
        (Read fuel es outs).2.1.lastEventID
          = if e.ID ≠ [] ∨ e.ResetID then e.ID else es.lastEventID)
      ∧ (∀ fuel es outs, (Read fuel es outs).1 = .stuck →
        (Read fuel es outs).2.1.lastEventID = es.lastEventID)
      ∧ (∀ fuel es outs e0 er, (Read fuel es outs).1 = .err e0 er →
        (Read fuel es outs).2.1.lastEventID = es.lastEventID)
      ∧ (∀ fuel es outs id, TraceEv.sentRequest id ∈ (Read fuel es outs).2.2.2 →
        id = es.lastEventID) :=
  ⟨fun outs es => (connect_invariants outs es).1,
    connect_sent,
    fun fuel es outs => (Read_lastEventID fuel es outs).1,
    fun fuel es outs => (Read_lastEventID fuel es outs).2.1,
    fun fuel es outs e0 er => (Read_lastEventID fuel es outs).2.2 e0 er,
    Read_sent⟩

/-- C4 (witness): delivering `id: 7` updates the sticky id from `"0"` to
`"7"`. -/
theorem claim_C4_witness :
    (Read 1 ⟨none, true, some ⟨ascii "id: 7\ndata: y\n\n", true⟩, ascii "0", 3⟩
      []).2.1.lastEventID = ascii "7" := by
  rw [claim_C4.2.2.1 1 ⟨none, true, some ⟨ascii "id: 7\ndata: y\n\n", true⟩, ascii "0", 3⟩ []
    ⟨ascii "message", ascii "7", [], ascii "y", false⟩ (by decide)]
  decide

/-- C5: decoding the block `"event: type\ndata\n\n"` succeeds with type
`"type"` and zero-length `Data`; and `Read` never returns an event whose
`Data` is empty (such events are discarded and decoding continues). -/
theorem claim_C5 :
    Decode ⟨ascii "event: type\ndata\n\n", false⟩ zeroEvent
        = (.ok ⟨ascii "type", [], [], [], false⟩, ⟨[], true⟩)
      ∧ (∀ fuel es outs e, (Read fuel es outs).1 = .ok e → e.Data ≠ []) :=
  ⟨by decide, fun _ _ _ _ h => Read_ok_data h⟩

/-- C5 (witness): a concrete `Read` delivering `data: x` returns an event
with non-empty data. -/
theorem claim_C5_witness :
    (Read 1 ⟨none, true, some ⟨ascii "data: x\n\n", true⟩, [], 0⟩ []).1
        = .ok ⟨ascii "message", [], [], [120], false⟩
      ∧ (⟨ascii "message", [], [], [120], false⟩ : Event).Data ≠ [] :=
  ⟨by decide, claim_C5.2 1 ⟨none, true, some ⟨ascii "data: x\n\n", true⟩, [], 0⟩ [] _
    (by decide)⟩

/-- C6 (counterexample): the claim's "if and only if the Retry string
parses as a non-negative integer" is false: `strconv.Atoi` also accepts
negative values, so delivering `retry: -1` updates the interval (to
-1 ms), which the claim says should leave it unchanged at 5. -/
theorem claim_C6_counterexample :
    atoi (ascii "-1") = some (-1)
      ∧ (Read 1 ⟨none, true, some ⟨ascii "retry: -1\ndata: x\n\n", true⟩, [], 5⟩ []).1
          = .ok ⟨ascii "message", [], ascii "-1", [120], false⟩
      ∧ (Read 1 ⟨none, true, some ⟨ascii "retry: -1\ndata: x\n\n", true⟩, [], 5⟩
          []).2.1.retry = -1000000
      ∧ (-1000000 : Int) ≠ 5 :=
  ⟨by decide, by decide, by decide, by decide⟩

/-- C6 (amended): when `Read` delivers an event, the retry interval is
updated if and only if the `Retry` string parses via `strconv.Atoi` as a
signed 64-bit integer `n` (malformed values are silently ignored), and the
new interval is `n` milliseconds in int64-nanosecond arithmetic. -/
theorem claim_C6 :
    ∀ fuel es outs e, (Read fuel es outs).1 = .ok e →
      (Read fuel es outs).2.1.retry
        = if e.Retry ≠ [] then
            (match atoi e.Retry with
              | some n => wrap64 (n * 1000000)
              | none => es.retry)
          else es.retry :=
  fun fuel es outs => (Read_retry fuel es outs).1

/-- C6 (witness): `retry: 10000` yields a 10-second (10^10 ns) interval. -/
theorem claim_C6_witness :
    (Read 1 ⟨none, true, some ⟨ascii "retry: 10000\ndata: x\n\n", true⟩, [], 5⟩
      []).2.1.retry = 10000000000 := by
  rw [claim_C6 1 ⟨none, true, some ⟨ascii "retry: 10000\ndata: x\n\n", true⟩, [], 5⟩ []
    ⟨ascii "message", [], ascii "10000", [120], false⟩ (by decide)]
  decide

/-- C7 (counterexample): the claim "the wait is skipped only on the very
first attempt" is false: a fresh client whose first attempt gets a 500
makes a second attempt with no wait (the wait requires a previously bound
response body, not merely a previous attempt).  The concrete trace has two
issued requests and zero waits. -/
theorem claim_C7_counterexample :
    connect ⟨none, false, none, [], 7⟩
        [.resp 500 [] [], .resp 200 (ascii "text/event-stream") []]
      = (⟨none, true, some ⟨[], false⟩, [], 7⟩, [],
        [TraceEv.sentRequest [], TraceEv.closedRespBody, TraceEv.sentRequest [],
          TraceEv.boundDecoder])
      ∧ ([TraceEv.sentRequest [], TraceEv.closedRespBody, TraceEv.sentRequest [],
          TraceEv.boundDecoder].countP isSentRequest = 2)
      ∧ ([TraceEv.sentRequest [], TraceEv.closedRespBody, TraceEv.sentRequest [],
          TraceEv.boundDecoder].countP isWaited = 0) :=
  ⟨by decide, by decide, by decide⟩

/-- C7 (amended): `connect` closes the previous connection and waits the
current retry interval before an attempt exactly when a response body has
previously been bound (`es.r`): with no previous connection there are no
waits and no body closes at all; with one, every attempt is preceded by
one body close and one wait of the current retry interval, and each
attempt's trace begins with close, wait, request. -/
theorem claim_C7 :
    (∀ outs es, es.err = none → es.r = false →
      (connect es outs).2.2.countP isWaited = 0
        ∧ (connect es outs).2.2.countP isClosedBody = 0)
      ∧ (∀ outs es, es.err = none → es.r = true →
        (connect es outs).2.2.countP isWaited
            = (connect es outs).2.2.countP isSentRequest
          ∧ (connect es outs).2.2.countP isClosedBody
            = (connect es outs).2.2.countP isSentRequest
          ∧ ∀ d, TraceEv.waited d ∈ (connect es outs).2.2 → d = es.retry)
      ∧ (∀ es o rest, es.err = none → es.r = true →
        ∃ tr', (connect es (o :: rest)).2.2
          = TraceEv.closedBody :: TraceEv.waited es.retry
            :: TraceEv.sentRequest es.lastEventID :: tr') :=
  ⟨connect_waits_fresh, connect_waits_connected, fun _ _ _ => connect_step_waits⟩

/-- C7 (witness): with a previously bound body, the attempt trace starts
with the body close and the retry wait. -/
theorem claim_C7_witness :
    ∃ tr', (connect ⟨none, true, some ⟨[], true⟩, [], 7⟩ [.resp 204 [] []]).2.2
      = TraceEv.closedBody :: TraceEv.waited 7 :: TraceEv.sentRequest [] :: tr' :=
  claim_C7.2.2 ⟨none, true, some ⟨[], true⟩, [], 7⟩ (.resp 204 [] []) [] rfl rfl

/-- C8 (counterexample): the claim's "if and only if the logical line has
zero length" is false: the one-byte line `":"` also yields the empty
field, empty value, no-error boundary result (everything before the first
colon is empty and so is the space-stripped value). -/
theorem claim_C8_counterexample :
    ReadField ⟨[58], true⟩ = (.ok [] [], ⟨[], true⟩)
      ∧ readLine [58] = some ([58], [])
      ∧ ([58] : List Nat).length ≠ 0 :=
  ⟨by decide, by decide, by decide⟩

/-- C8 (amended): `ReadField` returns the boundary signal (empty field,
empty value, no error) exactly when the logical line it reads is empty,
`":"`, or `": "` — the lines whose colon cut and single-space strip leave
both halves empty. -/
theorem claim_C8 (s : DecState) :
    (ReadField s).1 = FieldRes.ok [] []
      ↔ match readLine (bomAdjust s).input with
        | some (line, _) => line = [] ∨ line = [58] ∨ line = [58, 32]
        | none => False := by
  show (readFieldCore (bomAdjust s).input).1 = FieldRes.ok [] [] ↔ _
  exact readFieldCore_boundary (bomAdjust s).input

/-- C8 (witness): the boundary result on a genuinely empty line. -/
theorem claim_C8_witness : (ReadField ⟨[10], true⟩).1 = FieldRes.ok [] [] :=
  (claim_C8 ⟨[10], true⟩).2 (Or.inl rfl)

/-- C9 (counterexample): `Decode` does not return the `ReadField` error
value unchanged: it wraps it (`fmt.Errorf("read field: %w", err)`).  On
empty input `ReadField` fails with `eof` but `Decode` returns
`readFieldWrap eof`, a different error value. -/
theorem claim_C9_counterexample :
    ReadField ⟨[], false⟩ = (.err .eof, ⟨[], false⟩)
      ∧ Decode ⟨[], false⟩ zeroEvent = (.error (.readFieldWrap .eof), ⟨[], false⟩)
      ∧ GoError.readFieldWrap .eof ≠ .eof :=
  ⟨by decide, by decide, by decide⟩

/-- C9 (amended): whenever `ReadField` fails, `Decode` returns exactly the
single wrapper `readFieldWrap` around that error (never swallowing it),
and every error `Decode` returns has this shape with the original
`ReadField` error reachable by `errors.Is` through the unwrap chain —
including `ErrInvalidEncoding` and end-of-stream. -/
theorem claim_C9 :
    (∀ s e w fuel er s', ReadField s = (.err er, s') →
      decodeLoop (fuel + 1) s e w = some (.error (.readFieldWrap er), s'))
      ∧ (∀ s e er s', Decode s e = (.error er, s') →
        ∃ er₀, er = .readFieldWrap er₀ ∧ errorsIs er er₀ = true) :=
  ⟨fun _ _ _ _ _ _ h => decodeLoop_err_step h, fun _ _ _ _ h => Decode_error_shape h⟩

/-- C9 (witness): the wrapped end-of-stream error at a concrete state. -/
theorem claim_C9_witness :
    decodeLoop 1 ⟨[], true⟩ zeroEvent false
      = some (.error (.readFieldWrap .eof), ⟨[], true⟩) :=
  claim_C9.1 ⟨[], true⟩ zeroEvent false 0 .eof ⟨[], true⟩ (by decide)

/-- C10: `Decode` mutates only `Type'` (to `"message"`) before processing
fields: decoding a block into a reused event retains the previous `ID`,
`ResetID`, `Retry` and `Data` whenever the block lacks the corresponding
field, only ever appends to `Data`, and never clears `ResetID`; the
decoded event is exactly the field-dispatch fold over the block's fields
started from the reused event with `Type'` set to `"message"`. -/
theorem claim_C10 :
    ∀ s fs s' e e' s'', decodeFieldsRun s = (.ok fs, s') → Decode s e = (.ok e', s'') →
      s'' = s'
        ∧ e' = (foldDispatch { e with Type' := ascii "message" } false fs).1
        ∧ ((∀ p ∈ fs, p.1 ≠ ascii "id") → e'.ID = e.ID ∧ e'.ResetID = e.ResetID)
        ∧ ((∀ p ∈ fs, p.1 ≠ ascii "retry") → e'.Retry = e.Retry)
        ∧ ((∀ p ∈ fs, p.1 ≠ ascii "event") → e'.Type' = ascii "message")
        ∧ ((∀ p ∈ fs, p.1 ≠ ascii "data") → e'.Data = e.Data)
        ∧ (∃ t, e'.Data = e.Data ++ t)
        ∧ (e.ResetID = true → e'.ResetID = true) := by
  intro s fs s' e e' s'' h1 h2
  have hD := Decode_decodeFieldsRun h1 e
  rw [h2] at hD
  have hp := Prod.mk.injEq .. ▸ hD
  obtain ⟨hpe, hps⟩ := hp
  injection hpe with hpe
  subst hps
  subst hpe
  refine ⟨rfl, rfl, ?_, ?_, ?_, ?_, ?_, ?_⟩
  · intro h
    exact foldDispatch_no_id h _ _
  · intro h
    exact foldDispatch_no_retry h _ _
  · intro h
    exact foldDispatch_no_event h _ _
  · intro h
    exact foldDispatch_no_data h _ _
  · exact foldDispatch_data_extends fs _ _
  · intro h
    exact foldDispatch_resetID_mono h

/-- C10 (witness): decoding a block with only an unknown field (`x: 1`)
into a reused event keeps its `ID` and `ResetID`. -/
theorem claim_C10_witness :
    (⟨ascii "message", ascii "i", ascii "r", ascii "d", true⟩ : Event).ID = ascii "i"
      ∧ (⟨ascii "message", ascii "i", ascii "r", ascii "d", true⟩ : Event).ResetID = true := by
  have h := claim_C10 ⟨ascii "x: 1\n\n", true⟩ [([120], [49])] ⟨[], true⟩
    ⟨ascii "t", ascii "i", ascii "r", ascii "d", true⟩
    ⟨ascii "message", ascii "i", ascii "r", ascii "d", true⟩ ⟨[], true⟩
    (by decide) (by decide)
  exact h.2.2.1 (by decide)

end ES
